import Mathlib

set_option maxRecDepth 10000

deriving instance DecidableEq for Except

/-!
Verification of the core of the doron2402/pyaxiom repository against its
natural-language specification.

Strings from the Python source are embedded as `List Char`.  Floating point
values are embedded as exact rationals wrapped in `RVal`, which separates the
finite values from the non-finite sentinels (nan, +inf, -inf) that
`np.ma.fix_invalid` masks.  Masked-array cells are `Option` values, `none`
standing for a masked (invalid / fill) cell.  Python exceptions are embedded
with the `Except PyErr` monad.
-/

/-- Python exception classes reachable in the embedded code paths. -/
inductive PyErr
  | valueError
  | typeError
  | attributeError
  | indexError
  | keyError
  | assertionError
  deriving DecidableEq, Repr

/-! ## String primitives (Python `str` operations on `List Char`) -/

/-- Python `s.split(c)` for a one-character separator: always returns a
non-empty list of (possibly empty) pieces. -/
def splitOnChar (c : Char) : List Char → List (List Char)
  | [] => [[]]
  | x :: xs =>
    match splitOnChar c xs with
    | [] => if x = c then [[], []] else [[x]]
    | r :: rs => if x = c then [] :: r :: rs else (x :: r) :: rs

/-- Python `sep.join(parts)` for a one-character separator. -/
def joinSep (c : Char) (parts : List (List Char)) : List Char :=
  List.intercalate [c] parts

/-- Python `s.replace(old, new)` when `old` is a single character. -/
def replaceChar (c : Char) (r : List Char) (s : List Char) : List Char :=
  (s.map (fun x => if x = c then r else [x])).flatten

/-- Helper for Python `str.strip`: drop leading whitespace. -/
def lstripWs : List Char → List Char
  | [] => []
  | x :: xs => if x.isWhitespace then lstripWs xs else x :: xs

/-- Python `s.strip()`: drop leading and trailing whitespace. -/
def stripWs (s : List Char) : List Char :=
  (lstripWs (lstripWs s).reverse).reverse

/-- Python `s.upper()` (ASCII). -/
def pyUpper (s : List Char) : List Char := s.map Char.toUpper

/-- Python `s.lower()` (ASCII). -/
def pyLower (s : List Char) : List Char := s.map Char.toLower

/-- The property that character `c` does not occur in `s`. -/
def NoChar (c : Char) (s : List Char) : Prop := ∀ x ∈ s, x ≠ c

instance (c : Char) (s : List Char) : Decidable (NoChar c s) := by
  unfold NoChar; infer_instance

theorem splitOnChar_ne_nil (c : Char) (s : List Char) : splitOnChar c s ≠ [] := by
  cases s with
  | nil => simp [splitOnChar]
  | cons x xs =>
    simp only [splitOnChar]
    rcases h : splitOnChar c xs with _ | ⟨r, rs⟩ <;> split <;> split <;> simp

theorem splitOnChar_eq_single {c : Char} {s : List Char} (h : NoChar c s) :
    splitOnChar c s = [s] := by
  induction s with
  | nil => rfl
  | cons x xs ih =>
    have hx : x ≠ c := h x (List.mem_cons_self x xs)
    have hxs : NoChar c xs := fun y hy => h y (List.mem_cons_of_mem x hy)
    simp only [splitOnChar, ih hxs]
    simp [hx]

theorem splitOnChar_append {c : Char} {a : List Char} (b : List Char)
    (h : NoChar c a) : splitOnChar c (a ++ c :: b) = a :: splitOnChar c b := by
  induction a with
  | nil =>
    simp only [List.nil_append, splitOnChar]
    rcases hb : splitOnChar c b with _ | ⟨r, rs⟩
    · exact absurd hb (splitOnChar_ne_nil c b)
    · simp
  | cons x xs ih =>
    have hx : x ≠ c := h x (List.mem_cons_self x xs)
    have hxs : NoChar c xs := fun y hy => h y (List.mem_cons_of_mem x hy)
    simp only [List.cons_append, splitOnChar]
    rw [show xs.append (c :: b) = xs ++ c :: b from rfl, ih hxs]
    simp [hx]

theorem replaceChar_eq_self {c : Char} {r s : List Char} (h : NoChar c s) :
    replaceChar c r s = s := by
  induction s with
  | nil => rfl
  | cons x xs ih =>
    have hx : x ≠ c := h x (List.mem_cons_self x xs)
    have hxs : NoChar c xs := fun y hy => h y (List.mem_cons_of_mem x hy)
    simp only [replaceChar, List.map_cons, List.flatten_cons]
    simp only [replaceChar] at ih
    simp [hx, ih hxs]

theorem replaceChar_append (c : Char) (r a b : List Char) :
    replaceChar c r (a ++ b) = replaceChar c r a ++ replaceChar c r b := by
  simp [replaceChar]

theorem replaceChar_cons_self (c : Char) (r b : List Char) :
    replaceChar c r (c :: b) = r ++ replaceChar c r b := by
  simp [replaceChar]

/-- The property that `s` contains no whitespace characters. -/
def NoWs (s : List Char) : Prop := ∀ x ∈ s, ¬ x.isWhitespace

instance (s : List Char) : Decidable (NoWs s) := by
  unfold NoWs; infer_instance

theorem lstripWs_eq_self {s : List Char} (h : NoWs s) : lstripWs s = s := by
  cases s with
  | nil => rfl
  | cons x xs =>
    have hx : ¬ x.isWhitespace := h x (List.mem_cons_self x xs)
    simp [lstripWs, hx]

theorem stripWs_eq_self {s : List Char} (h : NoWs s) : stripWs s = s := by
  have hrev : NoWs s.reverse := fun x hx => h x (List.mem_reverse.mp hx)
  simp [stripWs, lstripWs_eq_self h, lstripWs_eq_self hrev]

/-! ## Python dictionaries (insertion ordered, as association lists) -/

/-- Embedded Python string. -/
abbrev Str := List Char

/-- Insertion-ordered string dictionary, the model of the `dict` values
built by `dictify_urn`. -/
abbrev PyDict := List (Str × Str)

/-- Python `d[k] = v`: update in place if the key is present, else append. -/
def dictSet (d : PyDict) (k v : Str) : PyDict :=
  match d with
  | [] => [(k, v)]
  | (k0, v0) :: rest => if k0 = k then (k0, v) :: rest else (k0, v0) :: dictSet rest k v

/-- Python `d.get(k)` / `d[k]` lookup. -/
def dictGet? (d : PyDict) (k : Str) : Option Str :=
  (d.find? (fun p => p.1 == k)).map (fun p => p.2)

/-- Python `k in d`. -/
def dictHas (d : PyDict) (k : Str) : Bool :=
  d.any (fun p => p.1 == k)

/-! ## IoosUrn

Modelled from the spec: the class `IoosUrn` lives in `pyaxiom/urn.py`, which is
not among the provided source files (only its callers in
`src/pyaxiom/utils.py` are).  The spec gives the canonical serialized form
`urn:ioos:sensor:{authority}:{station_label}:{name_with_clauses}` (section 4.4)
and says that decoding splits on `:` to recover authority, station and
component, failing structurally when the `urn:ioos:sensor:` prefix or the
minimum colon-delimited field count is absent.  Because `dictify_urn` (which is
in the sources) itself splits `ioos_urn.component` on `#`, the component
returned by `from_string` must keep its `#`-clause suffix, so the parse below
protects everything from the first `#` onward from the colon split and
reattaches it to the component field. -/

structure IoosUrn where
  asset_type : Option Str := none
  authority : Option Str := none
  label : Option Str := none
  component : Option Str := none
  version : Option Str := none
  deriving DecidableEq

/-- Modelled from the spec: validity of a parsed or constructed URN record
(authority, station label and asset type must all be present). -/
def IoosUrn.valid (u : IoosUrn) : Bool :=
  u.asset_type.isSome && u.authority.isSome && u.label.isSome

/-- Modelled from the spec: serialization to the canonical
`urn:ioos:{asset_type}:{authority}:{label}[:{component}[:{version}]]` string;
an invalid record serializes to nothing. -/
def IoosUrn.urnStr (u : IoosUrn) : Option Str :=
  if u.valid then
    some ((("urn:ioos:").data) ++ u.asset_type.getD [] ++ ':' :: u.authority.getD []
      ++ ':' :: u.label.getD []
      ++ (match u.component with | some c => ':' :: c | none => [])
      ++ (match u.version with | some v => ':' :: v | none => []))
  else none

/-- Modelled from the spec: assembling the parsed record from the
colon-delimited fields and the protected `#`-clause suffix, invalid (empty)
when the `urn:ioos:` prefix or the minimum field count is absent. -/
def IoosUrn.ofParts (parts : List Str) (extras : Str) : IoosUrn :=
  if parts.length < 5 ∨ parts.getD 0 [] ≠ ("urn").data ∨ parts.getD 1 [] ≠ ("ioos").data then
    {}
  else
    { asset_type := some (parts.getD 2 [])
      authority := some (parts.getD 3 [])
      label := some (parts.getD 4 [])
      component := if parts.length > 5 then some (parts.getD 5 [] ++ extras) else none
      version := if parts.length > 6 then some (parts.getD 6 []) else none }

/-- Modelled from the spec: parsing a URN string.  Splits off the `#`-clause
suffix, splits the head on `:`, and fills the record, the component keeping
the `#` suffix. -/
def IoosUrn.from_string (s : Str) : IoosUrn :=
  IoosUrn.ofParts (splitOnChar ':' ((splitOnChar '#' s).headD []))
    (if 1 < (splitOnChar '#' s).length then '#' :: (splitOnChar '#' s).getD 1 [] else [])

/-! ## Semantic identifier codec (`src/pyaxiom/utils.py`) -/

/-- The inner helper `clean_value` of `urnify_from_dict`:
`v.replace('(', '').replace(')', '').strip().replace(' ', '_')`. -/
def clean_value (v : Str) : Str :=
  replaceChar ' ' [('_' : Char)] (stripWs (replaceChar ')' [] (replaceChar '(' [] v)))

/-- Python `s.replace(needle, rep)` for a non-empty needle. -/
def replaceSubstrPos (needle rep : Str) : Str → Str
  | [] => []
  | x :: xs =>
    if needle.isPrefixOf (x :: xs) then
      rep ++ replaceSubstrPos needle rep (xs.drop (needle.length - 1))
    else
      x :: replaceSubstrPos needle rep xs
  termination_by s => s.length
  decreasing_by
    · simp only [List.length_drop, List.length_cons]
      omega
    · simp only [List.length_cons]
      omega

/-- Python `s.replace(needle, rep)`, including the empty-needle case, in which
CPython interleaves `rep` between all characters and at both ends. -/
def replaceSubstr (needle rep s : Str) : Str :=
  if needle = [] then rep ++ (s.map (fun c => c :: rep)).flatten
  else replaceSubstrPos needle rep s

/-- State of the character-by-character `cell_methods` scan inside
`urnify_from_dict`. -/
structure CMParse where
  keys : List Str := []
  vals : List Str := []
  sofar : Str := []
  deriving DecidableEq

/-- The backward scan `for j in reversed(range(0, i)): if cm[j] == " "`:
the greatest index `j < i` holding a space. -/
def findLastSpace (cm : Str) (i : Nat) : Option Nat :=
  ((List.range i).filter (fun j => cm.getD j 'x' == ' ')).getLast?

/-- One step of the `cell_methods` scan of `urnify_from_dict`, processing the
enumerated character `ic`.  On `:` with balanced keys/values the accumulated
text becomes a key; unbalanced, the scan looks back for the last space, slices
the key out of `cm`, and strips that key from the accumulated text to recover
the value. -/
def cmStep (cm : Str) (st : CMParse) (ic : Nat × Char) : CMParse :=
  if ic.2 = ':' then
    if st.keys.length = st.vals.length then
      { keys := st.keys ++ [clean_value st.sofar], vals := st.vals, sofar := [] }
    else
      match findLastSpace cm ic.1 with
      | some j =>
        let key := clean_value ((cm.drop (j + 1)).take (ic.1 - (j + 1)))
        { keys := st.keys ++ [key]
          vals := st.vals ++ [clean_value (replaceSubstr key [] st.sofar)]
          sofar := [] }
      | none => { st with sofar := [] }
  else
    { st with sofar := st.sofar ++ [ic.2] }

/-- Stable insertion into a list sorted by `le`, placing the new element after
existing equal elements (matching the stability of Python sorting). -/
def insertSorted (le : α → α → Bool) (x : α) : List α → List α
  | [] => [x]
  | y :: ys => if le y x then y :: insertSorted le x ys else x :: y :: ys

/-- Python `sorted` on pairs of strings (lexicographic tuple order), as a
stable insertion sort. -/
def sortPairs (le : α → α → Bool) (l : List α) : List α :=
  l.foldl (fun acc x => insertSorted le x acc) []

/-- Python `<` on strings: lexicographic by code point. -/
def strLt : Str → Str → Bool
  | [], [] => false
  | [], _ :: _ => true
  | _ :: _, [] => false
  | a :: as_, b :: bs => if a < b then true else if b < a then false else strLt as_ bs

/-- Python `<=` on `(str, str)` tuples, as used by `sorted(pairs)`. -/
def pairLe (p q : Str × Str) : Bool :=
  strLt p.1 q.1 || (p.1 == q.1 && (strLt p.2 q.2 || p.2 == q.2))

/-- `itertools.groupby` keyed on the first component: groups consecutive pairs
whose key equals the key of the first pair of the run, collecting the second
components. -/
def groupByKey : List (Str × Str) → List (Str × List Str)
  | [] => []
  | (a, b) :: rest =>
    match groupByKey rest with
    | [] => [(a, [b])]
    | (a2, bs) :: gs => if a = a2 then (a, b :: bs) :: gs else (a, [b]) :: (a2, bs) :: gs

/-- A sensor metadata record as consumed by `urnify_from_dict`.  An empty
string or empty list field models a missing or falsy (`None` / empty) entry of
the Python dict.  The `interval` entry is kept as a list of tokens; the source
normalizes a plain string to a one-element list. -/
structure SensorRecord where
  standard_name : Str := []
  name : Str := []
  discriminant : Str := []
  cell_methods : Str := []
  interval : List Str := []
  bounds : Str := []
  vertical_datum : Str := []
  deriving DecidableEq

/-- The encoder `urnify_from_dict` of `src/pyaxiom/utils.py`.  The
`randomName` argument stands for the randomly generated fallback variable name
the source draws when both `standard_name` and `name` are missing (the only
non-determinism of the function).  The body never raises, hence no `.error`
branch; the return value is `none` exactly when the constructed `IoosUrn` is
invalid (the source then returns Python `None`). -/
def urnify_from_dict (naming_authority station_identifier : Str) (randomName : Str)
    (d : SensorRecord) : Except PyErr (Option Str) :=
  let extrasIntervals :=
    if d.cell_methods ≠ [] then
      let cm := d.cell_methods
      let st := cm.enum.foldl (cmStep cm) {}
      let vals := st.vals ++ [clean_value st.sofar]
      let pairs := st.keys.zip vals
      let groups := groupByKey (sortPairs pairLe pairs)
      let memsAndIntervals := groups.foldl
        (fun (acc : List Str × List Str) g =>
          if g.1 = ("interval").data then (acc.1, g.2)
          else if g.1 = ("time").data ∨ g.1 = ("area").data then
            (acc.1 ++ [joinSep ',' (g.2.map (fun m => g.1 ++ ':' :: m))], acc.2)
          else acc)
        ([], [])
      let e := if memsAndIntervals.1 ≠ [] then
          [("cell_methods=").data ++ joinSep ',' memsAndIntervals.1]
        else []
      (e, memsAndIntervals.2)
    else ([], [])
  let extras1 := extrasIntervals.1
    ++ (if d.bounds ≠ [] then [("bounds=").data ++ d.bounds] else [])
  let extras2 := extras1
    ++ (if d.vertical_datum ≠ [] then [("vertical_datum=").data ++ d.vertical_datum] else [])
  let intervals1 := extrasIntervals.2 ++ (if d.interval ≠ [] then d.interval else [])
  let vn0 := if d.standard_name ≠ [] then d.standard_name
             else if d.name ≠ [] then d.name else randomName
  let vn1 := if d.discriminant ≠ [] then vn0 ++ '-' :: d.discriminant else vn0
  let dedup := intervals1.foldl (fun acc x => if acc.contains x then acc else acc ++ [x]) []
  let extras3 := extras2 ++ (if intervals1 ≠ [] then [("interval=").data ++ joinSep ',' dedup] else [])
  let vn2 := if extras3 ≠ [] then vn1 ++ '#' :: joinSep ';' extras3 else vn1
  let u : IoosUrn := { asset_type := some (("sensor").data)
                       authority := some naming_authority
                       label := some station_identifier
                       component := some vn2
                       version := none }
  .ok u.urnStr

/-- The per-clause value fixup of `dictify_urn`:
`x.replace('_', ' ').replace(':', ': ')`. -/
def clauseValueFix (x : Str) : Str :=
  replaceChar ':' [':', ' '] (replaceChar '_' [' '] x)

/-- One clause (`key=values`) of the `#`-suffix of a URN, processed by the
decoder loop of `dictify_urn`.  The state is (dict, intervals, cell_methods).
A clause that does not split on `=` into exactly two pieces raises a
`ValueError` (the tuple unpacking of `section.split('=')`). -/
def processClause (acc : PyDict × List Str × List Str) (sec : Str) :
    Except PyErr (PyDict × List Str × List Str) :=
  match splitOnChar '=' sec with
  | [key, values] =>
    if key = ("interval").data then
      .ok (acc.1, acc.2.1 ++ splitOnChar ',' values, acc.2.2)
    else if key = ("cell_methods").data then
      .ok (acc.1, acc.2.1, (splitOnChar ',' values).map clauseValueFix)
    else
      .ok (dictSet acc.1 key (joinSep ' ' ((splitOnChar ',' values).map clauseValueFix)),
           acc.2.1, acc.2.2)
  | _ => .error .valueError

/-- Decoder stage: split the URN component on `#` into the base name and the
clause text (`standard_name, extras = component.split('#')` raising
`ValueError` unless the split has exactly two pieces; no `#` means no
clauses). -/
def dSplitComponent (component : Str) : Except PyErr (Str × Str) :=
  if component.contains '#' then
    match splitOnChar '#' component with
    | [a, b] => .ok (a, b)
    | _ => .error .valueError
  else .ok (component, [])

/-- Decoder stage: the initial dict holding the standard name, with the
discriminant split off the base name whenever a `-` occurs anywhere in the
whole component. -/
def dBaseDict (component standard_name : Str) : PyDict :=
  if component.contains '-' then
    dictSet (dictSet [(("standard_name").data, standard_name)]
        (("discriminant").data) ((splitOnChar '-' standard_name).getLastD []))
      (("standard_name").data) ((splitOnChar '-' standard_name).headD [])
  else [(("standard_name").data, standard_name)]

/-- Decoder stage: process the `;`-separated clauses, accumulating the dict,
the interval tokens and the cell_methods values. -/
def dClauses (d : PyDict) (extras : Str) : Except PyErr (PyDict × List Str × List Str) :=
  if extras ≠ [] then (splitOnChar ';' extras).foldlM processClause (d, [], [])
  else .ok (d, [], [])

/-- Decoder stage: merge the interval tokens into `cell_methods` when
`combine_interval` is set (raising the `ValueError` for intervals with no
cell_methods), or store them under their own key otherwise. -/
def dCombine (combine_interval : Bool) (d2 : PyDict)
    (intervals cell_methods : List Str) : Except PyErr PyDict :=
  if combine_interval then
    if cell_methods ≠ [] ∧ intervals ≠ [] then
      if cell_methods.length = intervals.length then
        .ok (dictSet d2 (("cell_methods").data)
          (joinSep ' ' ((cell_methods.zip intervals).map
            (fun x => x.1 ++ (" (interval: ").data ++ pyUpper x.2 ++ [')']))))
      else
        .ok (dictSet d2 (("cell_methods").data)
          (intervals.foldl (fun s i => s ++ (" (interval: ").data ++ pyUpper i ++ [')'])
            (joinSep ' ' cell_methods)))
    else if cell_methods ≠ [] then
      .ok (dictSet d2 (("cell_methods").data)
        (intervals.foldl (fun s i => s ++ (" (interval: ").data ++ pyUpper i ++ [')'])
          (joinSep ' ' cell_methods)))
    else if intervals ≠ [] then
      .error .valueError
    else .ok d2
  else
    .ok (dictSet (dictSet d2 (("cell_methods").data) (joinSep ' ' cell_methods))
      (("interval").data) (pyUpper (joinSep ',' intervals)))

/-- Decoder stage: uppercase the `vertical_datum` value when the key is
present. -/
def dVdFix (d : PyDict) : PyDict :=
  if dictHas d (("vertical_datum").data) then
    dictSet d (("vertical_datum").data)
      (pyUpper ((dictGet? d (("vertical_datum").data)).getD []))
  else d

/-- The decoder `dictify_urn` of `src/pyaxiom/utils.py`, assembled from its
stages in source order.  Invalid or non-sensor URNs decode to the empty dict;
reading the component of a component-less URN raises the `TypeError` of
`'#' in None`. -/
def dictify_urn (urn : Str) (combine_interval : Bool) : Except PyErr PyDict :=
  if (IoosUrn.from_string urn).valid = false then .ok []
  else if (IoosUrn.from_string urn).asset_type ≠ some (("sensor").data) then .ok []
  else match (IoosUrn.from_string urn).component with
    | none => .error .typeError
    | some component =>
      match dSplitComponent component with
      | .error e => .error e
      | .ok se =>
        match dClauses (dBaseDict component se.1) se.2 with
        | .error e => .error e
        | .ok st =>
          match dCombine combine_interval st.1 st.2.1 st.2.2 with
          | .error e => .error e
          | .ok d3 => .ok (dVdFix d3)

/-! ## Numeric value model

Floating point data is embedded as exact rationals plus the three non-finite
sentinels.  Reading a netCDF variable yields a masked array: cells already
masked by the reader (declared fill values) are `none`. -/

/-- A float64 value: finite (as an exact rational) or one of the non-finite
sentinels masked by `np.ma.fix_invalid`. -/
inductive RVal
  | fin (q : ℚ)
  | nan
  | inf
  | ninf
  deriving DecidableEq

/-- A masked-array cell. -/
abbrev MCell := Option RVal

/-- Round half to even at integer precision, the rounding mode of
`numpy.round`. -/
def rhe (q : ℚ) : ℤ :=
  if q - ⌊q⌋ < 1 / 2 then ⌊q⌋
  else if q - ⌊q⌋ > 1 / 2 then ⌊q⌋ + 1
  else if ⌊q⌋ % 2 = 0 then ⌊q⌋ else ⌊q⌋ + 1

/-- `numpy.round` to `p` decimal places. -/
def roundTo (p : ℕ) (q : ℚ) : ℚ :=
  (rhe (q * ((10 ^ p : ℕ) : ℚ)) : ℚ) / ((10 ^ p : ℕ) : ℚ)

/-- IEEE float64 addition on the embedded values (`numpy.cumsum` steps). -/
def RVal.add : RVal → RVal → RVal
  | .fin a, .fin b => .fin (a + b)
  | .nan, _ => .nan
  | _, .nan => .nan
  | .inf, .ninf => .nan
  | .ninf, .inf => .nan
  | .inf, _ => .inf
  | _, .inf => .inf
  | .ninf, _ => .ninf
  | _, .ninf => .ninf

/-- `numpy.round` on a possibly non-finite value (non-finite values are kept). -/
def RVal.roundR (p : ℕ) : RVal → RVal
  | .fin q => .fin (roundTo p q)
  | v => v

/-- `x < m` on a float64 value against a finite bound, with the IEEE rule that
every comparison against nan is false. -/
def RVal.ltQ : RVal → ℚ → Bool
  | .fin q, m => decide (q < m)
  | .nan, _ => false
  | .inf, _ => false
  | .ninf, _ => true

/-- `x > m` on a float64 value against a finite bound. -/
def RVal.gtQ : RVal → ℚ → Bool
  | .fin q, m => decide (q > m)
  | .nan, _ => false
  | .inf, _ => true
  | .ninf, _ => false

/-- `np.ma.fix_invalid` on one cell, keeping the `RVal` type: every non-finite
cell becomes masked. -/
def fix_invalid_keep : MCell → MCell
  | some (.fin q) => some (.fin q)
  | _ => none

/-- `np.ma.fix_invalid` on one cell, reading the surviving finite value as a
rational (used where the source immediately treats the repaired column as
plain numbers). -/
def fix_invalid : MCell → Option ℚ
  | some (.fin q) => some q
  | _ => none

/-- `np.ma.fix_invalid` on one unmasked value. -/
def fix_invalidR : RVal → Option ℚ
  | .fin q => some q
  | _ => none

/-- `np.ma.masked_outside` on one cell. -/
def masked_outside (lo hi : ℚ) : MCell → MCell
  | none => none
  | some v => if v.ltQ lo || v.gtQ hi then none else some v

/-- The `valid_min` / `valid_max` / `valid_range` attributes of a variable,
already converted to the variable dtype (the conversion and its
`safe_attribute_typing` failure mode sit outside the value model; a field is
`some` exactly when the attribute key is present and typed). -/
structure VarAttrs where
  valid_min : Option ℚ := none
  valid_max : Option ℚ := none
  valid_range : Option (ℚ × ℚ) := none
  deriving DecidableEq

/-- `generic_masked` of `src/pyaxiom/utils.py`: repair an array by masking
values outside the valid range (attributes first, then the `minv` / `maxv`
parameters, then the dtype limits `info_min` / `info_max`) and, when
`mask_nan`, masking non-finite values first.  `valid_range` takes precedence
over `valid_min` / `valid_max`. -/
def generic_masked (arr : List MCell) (attrs : VarAttrs) (info_min info_max : ℚ)
    (minv maxv : Option ℚ) (mask_nan : Bool) : List MCell :=
  let minv1 := if attrs.valid_min.isSome then attrs.valid_min else minv
  let maxv1 := if attrs.valid_max.isSome then attrs.valid_max else maxv
  let mm := match attrs.valid_range with
    | some r => (some r.1, some r.2)
    | none => (minv1, maxv1)
  let lo := mm.1.getD info_min
  let hi := mm.2.getD info_max
  let arr1 := if mask_nan then arr.map fix_invalid_keep else arr
  arr1.map (masked_outside lo hi)

/-- The largest finite float64, `np.finfo(np.float64).max`. -/
def F64MAX : ℚ := ((2 ^ 1024 - 2 ^ 971 : ℕ) : ℚ)

/-! ## Grid flattener (`src/pyaxiom/netcdf/sensors/dsg/profile/im.py`) -/

/-- One data variable of a profile dataset: its name, its already-read,
row-major-flattened 2-D grid of cells, and its attributes (which the
flattener never consults). -/
structure DataVar where
  name : Str
  vals : List MCell
  attrs : VarAttrs := {}
  deriving DecidableEq

/-- A dataset already classified as an incomplete multidimensional profile
file, as read through the dataset capability: `P` and `Z` are the profile and
level dimension sizes, `pvals` the profile-id variable (already coerced to
integers; the character-array fallback path sits outside the value model),
`tvals` the decoded time axis (`nc4.num2date` is the external reader, a
single-profile scalar arriving as a one-element list), and `xvals` / `yvals` /
`zvals` the coordinate axes.  Attribute records are carried so that whether
the flattener reads them is expressible. -/
structure ProfileDataset where
  P : ℕ
  Z : ℕ
  pvals : List (Option ℤ)
  tvals : List ℚ
  xvals : List MCell
  yvals : List MCell
  zvals : List MCell
  xattrs : VarAttrs := {}
  yattrs : VarAttrs := {}
  zattrs : VarAttrs := {}
  datavars : List DataVar := []
  deriving DecidableEq

/-- A dataframe cell: a finite value or missing (NaN). -/
abbrev Cell := Option ℚ

/-- A pandas dataframe: insertion-ordered named columns. -/
abbrev DF := List (Str × List Cell)

/-- `numpy.repeat(z)`: every element repeated `z` times in place. -/
def repeatEach (z : ℕ) (l : List α) : List α := (l.map (List.replicate z)).flatten

/-- Rounding of a dataframe cell. -/
def roundCell (p : ℕ) (c : Cell) : Cell := c.map (roundTo p)

/-- Rounding of a masked-array cell (mask kept, data rounded). -/
def roundMCell (p : ℕ) (c : MCell) : MCell := c.map (RVal.roundR p)

/-- The external `pygc.great_distance` routine on one pair of consecutive
points (start latitude, end latitude, start longitude, end longitude),
abstracted as a parameter of the flattener. -/
abbrev GreatDistance := Cell → Cell → Cell → Cell → RVal

/-- `np.cumsum` over the distance steps. -/
def cumsum (l : List RVal) : List RVal :=
  (l.foldl (fun acc x =>
    let s := RVal.add acc.1 x
    (s, acc.2 ++ [s])) (RVal.fin 0, [])).2

/-- `df_data[name] = col` (Python dict insertion). -/
def dfSet (d : DF) (k : Str) (v : List Cell) : DF :=
  match d with
  | [] => [(k, v)]
  | (k0, v0) :: rest => if k0 = k then (k0, v) :: rest else (k0, v0) :: dfSet rest k v

/-- `df.iloc[mask]`: keep the cells of a column at the true positions of the
row mask. -/
def applyRowMask (keep : List Bool) (col : List Cell) : List Cell :=
  ((col.zip keep).filter (fun vk => vk.2)).map (fun vk => vk.1)

/-- The per-data-variable pipeline of `to_dataframe`:
`np.ma.fix_invalid(np.ma.MaskedArray(x[:].astype(np.float64).round(3).flatten()))`
(note the rounding happens inside the repair wrapper). -/
def procVar (dv : DataVar) : List Cell :=
  (dv.vals.map (roundMCell 3)).map fix_invalid

/-- Reading an integer cell into a dataframe cell. -/
def intCell (c : Option ℤ) : Cell := c.map (fun n => (n : ℚ))

/-! The local columns of `IncompleteMultidimensionalProfile.to_dataframe`
(`src/pyaxiom/netcdf/sensors/dsg/profile/im.py`), one definition per local
variable of the source. -/

/-- The profile column `p`: the profile ids, each repeated Z times. -/
def profileColumn (self : ProfileDataset) : List Cell :=
  (repeatEach self.Z self.pvals).map intCell

/-- The vertical column `z`: repaired, flattened row-major, rounded to 5
decimals. -/
def zColumn (self : ProfileDataset) : List Cell :=
  (self.zvals.map fix_invalid).map (roundCell 5)

/-- The time column `t`: decoded times, each repeated Z times. -/
def tColumn (self : ProfileDataset) : List Cell :=
  (repeatEach self.Z self.tvals).map some

/-- The longitude column `x`: repaired, repeated Z times, rounded to 5
decimals. -/
def xColumn (self : ProfileDataset) : List Cell :=
  (repeatEach self.Z (self.xvals.map fix_invalid)).map (roundCell 5)

/-- The latitude column `y`. -/
def yColumn (self : ProfileDataset) : List Cell :=
  (repeatEach self.Z (self.yvals.map fix_invalid)).map (roundCell 5)

/-- The along-track distance column `d`: zero followed by the pairwise
great-circle distances of the broadcast positions, cumulatively summed,
rounded to 2 decimals, then repaired. -/
def distanceColumn (gd : GreatDistance) (self : ProfileDataset) : List Cell :=
  let xy := (xColumn self).zip (yColumn self)
  let steps : List RVal :=
    RVal.fin 0 :: List.zipWith (fun a b => gd a.2 b.2 a.1 b.1) xy.dropLast (xy.drop 1)
  ((cumsum steps).map (RVal.roundR 2)).map fix_invalidR

/-- The `df_data` dict before the data variables are inserted (Python dict
literal order). -/
def baseDF (gd : GreatDistance) (self : ProfileDataset) : DF :=
  [(("t").data, tColumn self), (("x").data, xColumn self), (("y").data, yColumn self),
   (("z").data, zColumn self), (("profile").data, profileColumn self),
   (("distance").data, distanceColumn gd self)]

/-- The full `df_data` dict: one further column per data variable, inserted in
iteration order. -/
def assembledDF (gd : GreatDistance) (self : ProfileDataset) : DF :=
  self.datavars.foldl (fun acc dv => dfSet acc dv.name (procVar dv)) (baseDF gd self)

/-- `building_index_to_drop`: starts all-true and is conjoined with every data
variable's mask. -/
def buildingMask (self : ProfileDataset) : List Bool :=
  self.datavars.foldl
    (fun bld dv => List.zipWith (fun b m => b && m) bld ((procVar dv).map Option.isNone))
    (List.replicate (tColumn self).length true)

/-- `IncompleteMultidimensionalProfile.to_dataframe` of
`src/pyaxiom/netcdf/sensors/dsg/profile/im.py`.  Builds the profile, z, time,
x, y and cumulative-distance columns, one column per data variable, then
optionally drops the all-missing columns (`df.dropna(axis=1, how='all')`) and
the rows at which every data variable is masked
(`df.iloc[~building_index_to_drop]`). -/
def to_dataframe (gd : GreatDistance) (self : ProfileDataset)
    (clean_cols : Bool) (clean_rows : Bool) : DF :=
  let df1 := if clean_cols then
      (assembledDF gd self).filter (fun c => c.2.any (fun v => v.isSome))
    else assembledDF gd self
  let keepMask := (buildingMask self).map (fun b => !b)
  if clean_rows then df1.map (fun c => (c.1, applyRowMask keepMask c.2)) else df1

/-! ## Geometry classifiers (`is_mine`)

The dataset capability (dimension table, variable handles, axis accessors,
feature-type attribute) is modelled per section 6 of the spec: the
`t_axes` / `x_axes` / `y_axes` / `z_axes` and `datavars` accessor results are
carried as fields, `get_variables_by_attributes(cf_role=...)` is a filter over
the variable list, and reading a missing `featureType` attribute raises an
`AttributeError` exactly as attribute access on a netCDF dataset does. -/

/-- A variable handle as seen by the classifiers. -/
structure NcVar where
  vname : Str := []
  dims : List Str := []
  size : ℕ := 0
  isStringType : Bool := false
  cf_role : Option Str := none
  sample_dimension : Bool := false
  instance_dimension : Bool := false
  deriving DecidableEq

/-- A dataset handle as seen by the classifiers. -/
structure NcDataset where
  dims : List (Str × ℕ) := []
  allvars : List NcVar := []
  featureType : Option Str := none
  taxes : List NcVar := []
  xaxes : List NcVar := []
  yaxes : List NcVar := []
  zaxes : List NcVar := []
  dvars : List NcVar := []
  deriving DecidableEq

/-- Python `assert b`: raises `AssertionError` when `b` is false. -/
def assertE (b : Bool) : Except PyErr Unit :=
  if b then .ok () else .error .assertionError

/-- `dsg.featureType`: `AttributeError` when the attribute is missing. -/
def readFeatureType (dsg : NcDataset) : Except PyErr Str :=
  match dsg.featureType with
  | some s => .ok s
  | none => .error .attributeError

/-- Python `l[i]`: `IndexError` out of range. -/
def listGetE (l : List α) (i : ℕ) : Except PyErr α :=
  match l.get? i with
  | some v => .ok v
  | none => .error .indexError

/-- Python `dsg.dimensions[name]`: `KeyError` when absent. -/
def dimGetE (dims : List (Str × ℕ)) (n : Str) : Except PyErr (Str × ℕ) :=
  match dims.find? (fun d => d.1 == n) with
  | some d => .ok d
  | none => .error .keyError

/-- The body of the `try` block of
`IncompleteMultidimensionalProfile.is_mine`, every structural check in source
order. -/
def profileChecks (dsg : NcDataset) : Except PyErr Unit := do
  let pvars := dsg.allvars.filter (fun v => v.cf_role == some (("profile_id").data))
  assertE (pvars.length == 1)
  let ft ← readFeatureType dsg
  assertE (pyLower ft == ("profile").data)
  assertE (dsg.taxes.length == 1)
  assertE (dsg.xaxes.length == 1)
  assertE (dsg.yaxes.length == 1)
  assertE (dsg.zaxes.length == 1)
  let pvar ← listGetE pvars 0
  let minimum_dimensions := if pvar.isStringType then 2 else 1
  let maximum_dimensions := if pvar.isStringType then 3 else 2
  assertE (decide (minimum_dimensions ≤ pvar.dims.length) &&
           decide (pvar.dims.length ≤ maximum_dimensions))
  let t ← listGetE dsg.taxes 0
  let x ← listGetE dsg.xaxes 0
  let y ← listGetE dsg.yaxes 0
  let z ← listGetE dsg.zaxes 0
  assertE (t.size == pvar.size)
  assertE (x.size == pvar.size)
  assertE (y.size == pvar.size)
  let pd0 ← listGetE pvar.dims 0
  let p_dim ← dimGetE dsg.dims pd0
  let zc ← listGetE (z.dims.filter (fun n => !(n == p_dim.1))) 0
  let z_dim ← dimGetE dsg.dims zc
  (dsg.dvars ++ [z]).forM (fun dv => do
    assertE (dv.dims.length == 2)
    assertE (dv.dims.contains z_dim.1)
    assertE (dv.dims.contains p_dim.1)
    assertE (dv.size == z_dim.2 * p_dim.2))

/-- `IncompleteMultidimensionalProfile.is_mine`: the checks run under
`try: ... except BaseException: return False`, so every embedded exception is
converted to a non-match. -/
def IncompleteMultidimensionalProfile.is_mine (dsg : NcDataset) : Except PyErr Bool :=
  match profileChecks dsg with
  | .ok _ => .ok true
  | .error _ => .ok false

/-- The body of the `try` block of
`IncompleteMultidimensionalTimeseries.is_mine`, every structural check in
source order. -/
def timeseriesChecks (dsg : NcDataset) : Except PyErr Unit := do
  let rvars := dsg.allvars.filter (fun v => v.cf_role == some (("timeseries_id").data))
  assertE (rvars.length == 1)
  let ft ← readFeatureType dsg
  assertE (pyLower ft == ("timeseries").data)
  assertE (decide (1 ≤ dsg.taxes.length))
  assertE (decide (1 ≤ dsg.xaxes.length))
  assertE (decide (1 ≤ dsg.yaxes.length))
  assertE ((dsg.allvars.filter (fun v => v.sample_dimension)).isEmpty)
  assertE ((dsg.allvars.filter (fun v => v.instance_dimension)).isEmpty)
  let t0 ← listGetE dsg.taxes 0
  assertE (t0.dims.length == 2)
  let rvar ← listGetE rvars 0
  assertE (decide (rvar.dims.length ≤ 2))

/-- `IncompleteMultidimensionalTimeseries.is_mine`: the checks run under
`try: ... except AssertionError: return False`, so only assertion failures are
converted to a non-match and every other exception propagates. -/
def IncompleteMultidimensionalTimeseries.is_mine (dsg : NcDataset) : Except PyErr Bool :=
  match timeseriesChecks dsg with
  | .ok _ => .ok true
  | .error .assertionError => .ok false
  | .error e => .error e

/-! ## Metadata aggregator (`calculated_metadata`) -/

/-- `unique_justseen` of `src/pyaxiom/utils.py` (with `key=None`), under an
explicit equality: the head of every maximal run of elements equal to that
run's head, matching `itertools.groupby`.  The equality is a parameter because
Python float NaN compares unequal to itself. -/
def unique_justseen (eq : α → α → Bool) : List α → List α
  | [] => []
  | x :: xs => x :: uniqueJustseenAfter eq x xs
where
  uniqueJustseenAfter (eq : α → α → Bool) (p : α) : List α → List α
    | [] => []
    | y :: ys => if eq p y then uniqueJustseenAfter eq p ys else y :: uniqueJustseenAfter eq y ys

/-- Python `==` on dataframe cells: NaN (a masked cell) is unequal to
everything, itself included. -/
def cellEq (a b : Cell) : Bool :=
  match a, b with
  | some u, some v => u == v
  | _, _ => false

/-- Python `==` on (x, y) pairs of dataframe cells. -/
def pairCellEq (a b : Cell × Cell) : Bool :=
  cellEq a.1 b.1 && cellEq a.2 b.2

/-- `df.col` access: `AttributeError` when the column is gone. -/
def dfColE (df : DF) (n : Str) : Except PyErr (List Cell) :=
  match df.find? (fun c => c.1 == n) with
  | some c => .ok c.2
  | none => .error .attributeError

/-- `Series.min()`: NaN cells are skipped, an empty column gives NaN. -/
def colMin (col : List Cell) : Cell := (col.filterMap id).min?

/-- `Series.max()`. -/
def colMax (col : List Cell) : Cell := (col.filterMap id).max?

/-- The ascending, NaN-free group keys of `df.groupby(col)`. -/
def groupKeys (col : List Cell) : List ℚ :=
  ((col.filterMap id).foldl (fun acc x => if acc.contains x then acc else acc ++ [x]) []).foldl
    (fun acc x => insertSorted (fun a b => decide (a ≤ b)) x acc) []

/-- `sort_values('t')` comparison on cells (NaN sorts last). -/
def tLe (a b : Cell) : Bool :=
  match a, b with
  | some u, some v => decide (u ≤ v)
  | some _, none => true
  | none, some _ => false
  | none, none => true

/-- Stable sort of the row indices of one group by their time cell. -/
def sortIdxByT (tcol : List Cell) (idxs : List ℕ) : List ℕ :=
  idxs.foldl (fun acc i => insertSorted (fun a b => tLe (tcol.getD a none) (tcol.getD b none)) i acc) []

/-- The per-profile summary named tuple of `calculated_metadata`. -/
structure ProfileSummary where
  min_z : Cell
  max_z : Cell
  t : Cell
  x : Cell
  y : Cell
  loc : Cell × Cell
  deriving DecidableEq

/-- A shapely geometry as produced by `calculated_metadata`. -/
inductive Geometry
  | point (x y : Cell)
  | lineString (coords : List (Cell × Cell))
  deriving DecidableEq

/-- The metadata named tuple of `calculated_metadata`. -/
structure Metadata where
  min_t : Cell
  max_t : Cell
  profiles : List (ℚ × ProfileSummary)
  first_loc : Option (Cell × Cell)
  geometry : Option Geometry
  deriving DecidableEq

/-- The body of `IncompleteMultidimensionalProfile.calculated_metadata` after
the dataframe is built: group by profile, sort each group by time, summarize,
then derive the first location and the geometry (`df.iloc[0]` raising
`IndexError` on an empty dataframe before any geometry case is examined). -/
def metadataOfDf (df : DF) (geometries : Bool) : Except PyErr Metadata := do
  let profileCol ← dfColE df (("profile").data)
  let tcol ← dfColE df (("t").data)
  let zcol ← dfColE df (("z").data)
  let xcol ← dfColE df (("x").data)
  let ycol ← dfColE df (("y").data)
  let keys := groupKeys profileCol
  let profiles : List (ℚ × ProfileSummary) := keys.filterMap (fun k =>
    let idxs := (List.range profileCol.length).filter
      (fun i => cellEq (profileCol.getD i none) (some k))
    match sortIdxByT tcol idxs with
    | [] => none
    | i0 :: _ =>
      some (k, { min_z := colMin (idxs.map (fun i => zcol.getD i none))
                 max_z := colMax (idxs.map (fun i => zcol.getD i none))
                 t := tcol.getD i0 none
                 x := xcol.getD i0 none
                 y := ycol.getD i0 none
                 loc := (xcol.getD i0 none, ycol.getD i0 none) }))
  let geomLoc ← (if geometries then do
      if tcol.length = 0 then
        Except.error PyErr.indexError
      else
        let first_loc := (xcol.getD 0 none, ycol.getD 0 none)
        let coords := unique_justseen pairCellEq (xcol.zip ycol)
        let geometry : Option Geometry :=
          if 1 < coords.length then some (.lineString coords)
          else if coords.length = 1 then some (.point first_loc.1 first_loc.2)
          else none
        Except.ok (geometry, some first_loc)
    else Except.ok ((none : Option Geometry), (none : Option (Cell × Cell))))
  return { min_t := colMin tcol
           max_t := colMax tcol
           profiles := profiles
           first_loc := geomLoc.2
           geometry := geomLoc.1 }

/-- `IncompleteMultidimensionalProfile.calculated_metadata`: flatten, then
aggregate. -/
def IncompleteMultidimensionalProfile.calculated_metadata (gd : GreatDistance)
    (self : ProfileDataset) (geometries clean_cols clean_rows : Bool) :
    Except PyErr Metadata :=
  metadataOfDf (to_dataframe gd self clean_cols clean_rows) geometries

/-! ## Helper lemmas about the flattener building blocks -/

theorem repeatEach_length (z : ℕ) (l : List α) : (repeatEach z l).length = l.length * z := by
  induction l with
  | nil => simp [repeatEach]
  | cons a as ih =>
    simp only [repeatEach, List.map_cons, List.flatten_cons, List.length_append,
      List.length_replicate, List.length_cons] at *
    rw [ih]
    ring

theorem repeatEach_get? {z i : ℕ} (b : ℕ) (l : List α) (hi : i < z) :
    (repeatEach z l).get? (b * z + i) = l.get? b := by
  induction l generalizing b with
  | nil => simp [repeatEach]
  | cons a as ih =>
    have hre : repeatEach z (a :: as) = List.replicate z a ++ repeatEach z as := by
      simp [repeatEach]
    rw [hre]
    cases b with
    | zero =>
      rw [List.get?_append (by simpa using hi)]
      simp [List.get?_eq_getElem?, List.getElem?_replicate, hi]
    | succ b2 =>
      rw [List.get?_append_right (by simp; nlinarith)]
      have harith : (b2 + 1) * z + i - (List.replicate z a).length = b2 * z + i := by
        simp [List.length_replicate]; ring_nf; omega
      rw [harith, ih b2]
      rfl

theorem cumsum_length (l : List RVal) : (cumsum l).length = l.length := by
  suffices h : ∀ (l : List RVal) (a : RVal) (acc : List RVal),
      ((l.foldl (fun p x => (RVal.add p.1 x, p.2 ++ [RVal.add p.1 x])) (a, acc)).2).length
        = acc.length + l.length by
    simpa [cumsum] using h l (RVal.fin 0) []
  intro l
  induction l with
  | nil => intro a acc; simp
  | cons x xs ih =>
    intro a acc
    simp only [List.foldl_cons]
    rw [ih]
    simp
    omega

theorem applyRowMask_replicate_false (n : ℕ) (col : List Cell) :
    applyRowMask (List.replicate n false) col = [] := by
  induction col generalizing n with
  | nil => simp [applyRowMask]
  | cons a as ih =>
    cases n with
    | zero => simp [applyRowMask]
    | succ m =>
      simp only [applyRowMask, List.replicate_succ, List.zip_cons_cons, List.filter_cons]
      simpa [applyRowMask] using ih m

theorem dfSet_forall (Pr : List Cell → Prop) {d : DF} {k : Str} {v : List Cell}
    (hd : ∀ c ∈ d, Pr c.2) (hv : Pr v) : ∀ c ∈ dfSet d k v, Pr c.2 := by
  induction d with
  | nil => intro c hc; simp [dfSet] at hc; subst hc; exact hv
  | cons e rest ih =>
    intro c hc
    rcases e with ⟨k0, v0⟩
    simp only [dfSet] at hc
    by_cases hk : k0 = k
    · rw [if_pos hk] at hc
      rcases List.mem_cons.mp hc with h | h
      · subst h; exact hv
      · exact hd _ (List.mem_cons_of_mem _ h)
    · rw [if_neg hk] at hc
      rcases List.mem_cons.mp hc with h | h
      · subst h; exact hd _ (List.mem_cons_self _ _)
      · exact ih (fun c2 hc2 => hd c2 (List.mem_cons_of_mem _ hc2)) _ h

theorem foldl_dfSet_forall (Pr : List Cell → Prop) (f : DataVar → List Cell)
    (l : List DataVar) (base : DF)
    (hb : ∀ c ∈ base, Pr c.2) (hl : ∀ dv ∈ l, Pr (f dv)) :
    ∀ c ∈ l.foldl (fun acc dv => dfSet acc dv.name (f dv)) base, Pr c.2 := by
  induction l generalizing base with
  | nil => simpa using hb
  | cons dv rest ih =>
    simp only [List.foldl_cons]
    exact ih _ (dfSet_forall Pr hb (hl dv (List.mem_cons_self _ _)))
      (fun d hd => hl d (List.mem_cons_of_mem _ hd))

theorem dfColE_dfSet_ne {d : DF} {k2 k : Str} {v : List Cell} (h : k2 ≠ k) :
    dfColE (dfSet d k2 v) k = dfColE d k := by
  induction d with
  | nil =>
    have hb : (k2 == k) = false := by simpa using h
    simp [dfSet, dfColE, List.find?, hb]
  | cons e rest ih =>
    rcases e with ⟨k0, v0⟩
    simp only [dfSet]
    by_cases hk : k0 = k2
    · subst hk
      simp only [if_pos rfl, dfColE, List.find?]
      have : (k0 == k) = false := by simpa using h
      simp [this]
    · rw [if_neg hk]
      simp only [dfColE, List.find?] at *
      by_cases hk0 : k0 = k
      · subst hk0; simp
      · have : (k0 == k) = false := by simpa using hk0
        simp [this, ih]

theorem dfColE_foldl_dfSet_ne {f : DataVar → List Cell} {l : List DataVar} {base : DF}
    {k : Str} (h : ∀ dv ∈ l, dv.name ≠ k) :
    dfColE (l.foldl (fun acc dv => dfSet acc dv.name (f dv)) base) k = dfColE base k := by
  induction l generalizing base with
  | nil => rfl
  | cons dv rest ih =>
    simp only [List.foldl_cons]
    rw [ih (fun d hd => h d (List.mem_cons_of_mem _ hd)),
      dfColE_dfSet_ne (h dv (List.mem_cons_self _ _))]

/-! ## Concrete fixtures used by the witnesses and counterexamples -/

/-- A constant external great-circle routine returning nan (the flattener only
feeds it to masked positions in these fixtures). -/
def gdNan : GreatDistance := fun _ _ _ _ => RVal.nan

/-- A constant external great-circle routine returning zero distance. -/
def gdZero : GreatDistance := fun _ _ _ _ => RVal.fin 0

/-- A finite-valued masked-array cell. -/
def fq (n : ℤ) : MCell := some (RVal.fin (n : ℚ))

/-- Two profiles of three levels each, every cell valid. -/
def dsTwoProfiles : ProfileDataset :=
  { P := 2, Z := 3,
    pvals := [some 7, some 9],
    tvals := [0, 100],
    xvals := [fq 1, fq 2], yvals := [fq 3, fq 4],
    zvals := [fq 0, fq 5, fq 10, fq 1, fq 6, fq 11],
    datavars := [{ name := ("temp").data, vals := [fq 20, fq 21, fq 22, fq 23, fq 24, fq 25] }] }

/-- A one-cell dataset that declares no data variables at all. -/
def dsNoDataVars : ProfileDataset :=
  { P := 1, Z := 1, pvals := [some 0], tvals := [0],
    xvals := [fq 1], yvals := [fq 1], zvals := [fq 0], datavars := [] }

/-- A dataset whose longitude axis is masked in every cell. -/
def dsMaskedLongitude : ProfileDataset :=
  { P := 1, Z := 2, pvals := [some 0], tvals := [0],
    xvals := [none], yvals := [fq 1],
    zvals := [fq 0, fq 5],
    datavars := [{ name := ("temp").data, vals := [fq 1, fq 2] }] }

/-- A dataset whose vertical variable declares `valid_max = 5` yet holds the
finite value 10. -/
def dsOutOfRangeZ : ProfileDataset :=
  { P := 1, Z := 1, pvals := [some 0], tvals := [0],
    xvals := [fq 1], yvals := [fq 1], zvals := [fq 10],
    zattrs := { valid_max := some 5 }, datavars := [] }

/-- A three-row table whose (x, y) sequence is (1,1), (1,1), (2,2). -/
def dfDupThenNew : DF :=
  [(("t").data, [some 0, some 1, some 2]),
   (("x").data, [some 1, some 1, some 2]),
   (("y").data, [some 1, some 1, some 2]),
   (("z").data, [some 0, some 0, some 0]),
   (("profile").data, [some 0, some 0, some 0]),
   (("distance").data, [some 0, some 0, some 0])]

/-- A two-row table whose (x, y) sequence is (1,1), (1,1). -/
def dfDupOnly : DF :=
  [(("t").data, [some 0, some 1]),
   (("x").data, [some 1, some 1]),
   (("y").data, [some 1, some 1]),
   (("z").data, [some 0, some 0]),
   (("profile").data, [some 0, some 0]),
   (("distance").data, [some 0, some 0])]

/-- A variable carrying the timeseries-id role. -/
def tsRoleVar : NcVar := { vname := ("station").data, cf_role := some (("timeseries_id").data) }

/-- A dataset with a timeseries-id variable but no `featureType` attribute:
reading the attribute raises `AttributeError`. -/
def dsNoFeatureType : NcDataset := { allvars := [tsRoleVar], featureType := none }

/-! ## Claim C4 -/

/-- C4 counterexample: on a dataset carrying one timeseries-id variable but no
`featureType` attribute, the timeseries classifier propagates the
`AttributeError` raised while reading the attribute instead of reporting a
non-match, so classification is not a total predicate for both classifiers. -/
theorem C4_counterexample_timeseries_attribute_error :
    IncompleteMultidimensionalTimeseries.is_mine dsNoFeatureType
      = .error .attributeError ∧
    ¬ ∃ b, IncompleteMultidimensionalTimeseries.is_mine dsNoFeatureType = .ok b := by
  decide

/-- C4 (amended): the ProfileGrid classifier never propagates any embedded
exception (its guard catches `BaseException`), while the TimeseriesGrid
classifier converts exactly the assertion failures to a non-match — it never
yields an `AssertionError`, but non-assertion exceptions pass through. -/
theorem C4_amended_classifier_exception_policy (dsg : NcDataset) :
    (∃ b, IncompleteMultidimensionalProfile.is_mine dsg = .ok b) ∧
    IncompleteMultidimensionalTimeseries.is_mine dsg ≠ .error .assertionError := by
  constructor
  · unfold IncompleteMultidimensionalProfile.is_mine
    rcases h : profileChecks dsg with e | u
    · exact ⟨false, rfl⟩
    · exact ⟨true, rfl⟩
  · unfold IncompleteMultidimensionalTimeseries.is_mine
    rcases h : timeseriesChecks dsg with e | u
    · cases e <;> simp
    · simp

/-! ## Claim C6 -/

/-- C6: the aggregator geometry collapses only immediately-repeated
consecutive duplicate (longitude, latitude) pairs: the sequence
(1,1), (1,1), (2,2) yields the two-point path (1,1)-(2,2), and the sequence
(1,1), (1,1) yields the single point (1,1). -/
theorem C6_geometry_consecutive_collapse :
    (metadataOfDf dfDupThenNew true).map (fun m => m.geometry)
      = .ok (some (Geometry.lineString [(some 1, some 1), (some 2, some 2)])) ∧
    (metadataOfDf dfDupOnly true).map (fun m => m.geometry)
      = .ok (some (Geometry.point (some 1) (some 1))) := by
  decide

/-! ## Claim C7 -/

/-- C7: on a dataset whose flattened table has zero rows (here: no data
variables, so row pruning removes everything), `calculated_metadata` with
geometries enabled raises an `IndexError` at `df.iloc[0]` instead of
returning a summary with geometry `None`; with geometries disabled it does
return the empty summary the spec describes. -/
theorem C7_empty_table_geometry_raises :
    ((to_dataframe gdNan dsNoDataVars true true).all (fun col => col.2.isEmpty)) = true ∧
    IncompleteMultidimensionalProfile.calculated_metadata gdNan dsNoDataVars true true true
      = .error .indexError ∧
    IncompleteMultidimensionalProfile.calculated_metadata gdNan dsNoDataVars false true true
      = .ok { min_t := none, max_t := none, profiles := [], first_loc := none,
              geometry := none } := by
  decide

/-! ## Claim C9 -/

/-- C9: a ProfileGrid dataset declaring zero data variables flattens, under
`clean_rows`, to a table with zero rows: the empty-row mask starts all-true
and only data variables can clear it. -/
theorem C9_no_datavars_all_rows_dropped (gd : GreatDistance) (ds : ProfileDataset)
    (cc : Bool) (h : ds.datavars = []) :
    ((to_dataframe gd ds cc true).all (fun col => col.2.isEmpty)) = true := by
  rw [List.all_eq_true]
  intro col hcol
  have hmask : (buildingMask ds).map (fun b => !b)
      = List.replicate (tColumn ds).length false := by
    simp [buildingMask, h, List.map_replicate]
  simp only [to_dataframe, hmask] at hcol
  rcases List.mem_map.mp hcol with ⟨c0, _, hc0⟩
  rw [← hc0]
  simp [applyRowMask_replicate_false]

/-- C9 witness: the concrete no-data-variable dataset flattens to an empty
table. -/
theorem C9_no_datavars_all_rows_dropped_witness :
    dsNoDataVars.datavars = [] ∧
    ((to_dataframe gdNan dsNoDataVars true true).all (fun col => col.2.isEmpty)) = true :=
  ⟨rfl, C9_no_datavars_all_rows_dropped gdNan dsNoDataVars true rfl⟩

/-! ## Claim C1 -/

/-- C1: for a ProfileGrid dataset with at least one profile and one level and
no invalid cells, the assembled table (before any pruning) has exactly P * Z
rows in every column, and the instance column is constant over each contiguous
block of Z rows, the b-th block holding the b-th profile id (instance-major
order). -/
theorem C1_flatten_rows_and_blocks (gd : GreatDistance) (ds : ProfileDataset)
    (hP : 1 ≤ ds.P) (hZ : 1 ≤ ds.Z)
    (hp : ds.pvals.length = ds.P) (ht : ds.tvals.length = ds.P)
    (hx : ds.xvals.length = ds.P) (hy : ds.yvals.length = ds.P)
    (hz : ds.zvals.length = ds.P * ds.Z)
    (hd : ∀ dv ∈ ds.datavars, dv.vals.length = ds.P * ds.Z)
    (hnames : ∀ dv ∈ ds.datavars, dv.name ≠ ("profile").data)
    (hvp : ∀ c ∈ ds.pvals, c.isSome)
    (hvx : ∀ c ∈ ds.xvals, (fix_invalid c).isSome)
    (hvy : ∀ c ∈ ds.yvals, (fix_invalid c).isSome)
    (hvz : ∀ c ∈ ds.zvals, (fix_invalid c).isSome)
    (hvd : ∀ dv ∈ ds.datavars, ∀ c ∈ dv.vals, (fix_invalid c).isSome) :
    (∀ col ∈ to_dataframe gd ds false false, col.2.length = ds.P * ds.Z) ∧
    (∃ pc, dfColE (to_dataframe gd ds false false) (("profile").data) = .ok pc ∧
      ∀ b, b < ds.P → ∀ i, i < ds.Z →
        pc.get? (b * ds.Z + i) = (ds.pvals.get? b).map intCell) := by
  have hxlen : (xColumn ds).length = ds.P * ds.Z := by
    simp [xColumn, repeatEach_length, hx]
  have hylen : (yColumn ds).length = ds.P * ds.Z := by
    simp [yColumn, repeatEach_length, hy]
  have htlen : (tColumn ds).length = ds.P * ds.Z := by
    simp [tColumn, repeatEach_length, ht]
  have hzlen : (zColumn ds).length = ds.P * ds.Z := by
    simp [zColumn, hz]
  have hplen : (profileColumn ds).length = ds.P * ds.Z := by
    simp [profileColumn, repeatEach_length, hp]
  have hPZ : 1 ≤ ds.P * ds.Z := Nat.mul_le_mul hP hZ
  have hdlen : (distanceColumn gd ds).length = ds.P * ds.Z := by
    simp only [distanceColumn, List.length_map, cumsum_length, List.length_cons,
      List.length_zipWith, List.length_dropLast, List.length_drop, List.length_zip,
      hxlen, hylen]
    omega
  have hdf : to_dataframe gd ds false false = assembledDF gd ds := rfl
  constructor
  · rw [hdf]
    refine foldl_dfSet_forall (fun lcol => lcol.length = ds.P * ds.Z) procVar
      ds.datavars (baseDF gd ds) ?_ ?_
    · intro c hc
      simp only [baseDF, List.mem_cons, List.not_mem_nil, or_false] at hc
      rcases hc with h | h | h | h | h | h <;> subst h
      · exact htlen
      · exact hxlen
      · exact hylen
      · exact hzlen
      · exact hplen
      · exact hdlen
    · intro dv hdv
      simp [procVar, hd dv hdv]
  · rw [hdf]
    unfold assembledDF
    rw [dfColE_foldl_dfSet_ne hnames]
    refine ⟨profileColumn ds, rfl, ?_⟩
    intro b hb i hi
    simp only [profileColumn]
    rw [List.get?_map, repeatEach_get? b ds.pvals hi]

/-- C1 witness: the two-profile, three-level dataset flattens to 6-row
columns with instance blocks 7,7,7,9,9,9. -/
theorem C1_flatten_rows_and_blocks_witness :
    (∀ col ∈ to_dataframe gdZero dsTwoProfiles false false,
      col.2.length = dsTwoProfiles.P * dsTwoProfiles.Z) ∧
    (∃ pc, dfColE (to_dataframe gdZero dsTwoProfiles false false) (("profile").data)
        = .ok pc ∧
      ∀ b, b < dsTwoProfiles.P → ∀ i, i < dsTwoProfiles.Z →
        pc.get? (b * dsTwoProfiles.Z + i) = (dsTwoProfiles.pvals.get? b).map intCell) :=
  C1_flatten_rows_and_blocks gdZero dsTwoProfiles (by decide) (by decide) (by decide)
    (by decide) (by decide) (by decide) (by decide) (by decide) (by decide) (by decide)
    (by decide) (by decide) (by decide) (by decide)

/-! ## Claim C8 -/

theorem getD_range_map (l : List α) (d : α) :
    (List.range l.length).map (fun r => l.getD r d) = l := by
  induction l with
  | nil => simp
  | cons a as ih =>
    rw [List.length_cons, List.range_succ_eq_map]
    simp only [List.map_cons, List.getD_cons_zero, List.map_map]
    have hmc : (List.range as.length).map ((fun r => (a :: as).getD r d) ∘ Nat.succ)
        = (List.range as.length).map (fun r => as.getD r d) :=
      List.map_congr_left (fun r _ => by simp [List.getD_cons_succ])
    rw [hmc, ih]

theorem getD_zipWith {f : α → β → γ} {l1 : List α} {l2 : List β} {r : ℕ}
    (h1 : r < l1.length) (h2 : r < l2.length) (d1 : α) (d2 : β) (d3 : γ) :
    (List.zipWith f l1 l2).getD r d3 = f (l1.getD r d1) (l2.getD r d2) := by
  induction l1 generalizing l2 r with
  | nil => simp at h1
  | cons a as ih =>
    cases l2 with
    | nil => simp at h2
    | cons b bs =>
      cases r with
      | zero => simp
      | succ r2 =>
        simp only [List.zipWith_cons_cons, List.getD_cons_succ]
        exact ih (by simpa using h1) (by simpa using h2) 

theorem getD_map {f : α → β} {l : List α} {r : ℕ} (h : r < l.length) (d : α) (d2 : β) :
    (l.map f).getD r d2 = f (l.getD r d) := by
  induction l generalizing r with
  | nil => simp at h
  | cons a as ih =>
    cases r with
    | zero => simp
    | succ r2 =>
      simp only [List.map_cons, List.getD_cons_succ]
      exact ih (by simpa using h) 

theorem buildingMask_foldl (l : List DataVar) (acc : List Bool)
    (h : ∀ dv ∈ l, (procVar dv).length = acc.length) :
    l.foldl (fun bld dv => List.zipWith (fun b m => b && m) bld
        ((procVar dv).map Option.isNone)) acc
      = (List.range acc.length).map
          (fun r => acc.getD r false
            && l.all (fun dv => ((procVar dv).getD r none).isNone)) := by
  induction l generalizing acc with
  | nil =>
    simp only [List.foldl_nil, List.all_nil, Bool.and_true]
    exact (getD_range_map acc false).symm
  | cons dv rest ih =>
    simp only [List.foldl_cons]
    have hdv : (procVar dv).length = acc.length := h dv (List.mem_cons_self _ _)
    have hlen2 : (List.zipWith (fun b m => b && m) acc
        ((procVar dv).map Option.isNone)).length = acc.length := by
      simp [List.length_zipWith, hdv]
    rw [ih _ (by intro d hd; rw [h d (List.mem_cons_of_mem _ hd), ← hlen2]), hlen2]
    refine List.map_congr_left (fun r hr => ?_)
    have hrlt : r < acc.length := List.mem_range.mp hr
    rw [getD_zipWith hrlt (by simpa [hdv] using hrlt) false false false,
      getD_map (by simpa [hdv] using hrlt) none false]
    simp [Bool.and_assoc]

theorem getD_replicate (a d : α) {n r : ℕ} (h : r < n) :
    (List.replicate n a).getD r d = a := by
  induction n generalizing r with
  | zero => omega
  | succ m ih =>
    cases r with
    | zero => simp [List.replicate_succ]
    | succ r2 =>
      simp only [List.replicate_succ, List.getD_cons_succ]
      exact ih (by omega)

theorem buildingMask_eq (ds : ProfileDataset)
    (h : ∀ dv ∈ ds.datavars, (procVar dv).length = (tColumn ds).length) :
    buildingMask ds = (List.range (tColumn ds).length).map
      (fun r => ds.datavars.all (fun dv => ((procVar dv).getD r none).isNone)) := by
  unfold buildingMask
  rw [buildingMask_foldl ds.datavars (List.replicate (tColumn ds).length true)
    (by simpa using h)]
  simp only [List.length_replicate]
  refine List.map_congr_left (fun r hr => ?_)
  rw [getD_replicate true false (List.mem_range.mp hr)]
  simp

/-- C8 counterexample: on a dataset whose longitude axis is masked everywhere,
`clean_cols` removes the coordinate column x as well — `dropna(axis=1,
how='all')` does not spare the coordinate columns the claim says are kept. -/
theorem C8_counterexample_coordinate_column_dropped :
    dfColE (to_dataframe gdNan dsMaskedLongitude true false) (("x").data)
      = .error .attributeError ∧
    (to_dataframe gdNan dsMaskedLongitude true false).map (fun c => c.1)
      = [("t").data, ("y").data, ("z").data, ("profile").data,
         ("distance").data, ("temp").data] := by
  decide

/-- C8 (amended): with `clean_cols`, the surviving columns are exactly the
columns of the assembled table that are not invalid in every row — coordinate
columns included, none are spared; with `clean_rows`, the surviving cells of
every column are exactly those at rows where not all data variables are
simultaneously invalid. -/
theorem C8_amended_pruning (gd : GreatDistance) (ds : ProfileDataset) (cc : Bool)
    (hlen : ∀ dv ∈ ds.datavars, dv.vals.length = ds.tvals.length * ds.Z) :
    (∀ name : Str,
      (∃ col ∈ to_dataframe gd ds true false, col.1 = name) ↔
      (∃ col ∈ to_dataframe gd ds false false, col.1 = name ∧ ¬ ∀ v ∈ col.2, v = none)) ∧
    to_dataframe gd ds cc true = (to_dataframe gd ds cc false).map
      (fun col => (col.1, applyRowMask
        ((List.range (ds.tvals.length * ds.Z)).map
          (fun r => !(ds.datavars.all (fun dv => ((procVar dv).getD r none).isNone))))
        col.2)) := by
  constructor
  · intro name
    have h1 : to_dataframe gd ds true false
        = (assembledDF gd ds).filter (fun c => c.2.any (fun v => v.isSome)) := rfl
    have h2 : to_dataframe gd ds false false = assembledDF gd ds := rfl
    rw [h1, h2]
    constructor
    · rintro ⟨col, hmem, hname⟩
      rcases List.mem_filter.mp hmem with ⟨hin, hpred⟩
      refine ⟨col, hin, hname, ?_⟩
      rcases List.any_eq_true.mp hpred with ⟨v, hv, hsome⟩
      intro hall
      rw [hall v hv] at hsome
      simp at hsome
    · rintro ⟨col, hin, hname, hnotall⟩
      refine ⟨col, List.mem_filter.mpr ⟨hin, ?_⟩, hname⟩
      rw [List.any_eq_true]
      by_contra hnone
      push_neg at hnone
      exact hnotall (fun v hv => by
        have := hnone v hv
        simpa [Option.isSome_iff_ne_none] using this)
  · have htlen : (tColumn ds).length = ds.tvals.length * ds.Z := by
      simp [tColumn, repeatEach_length]
    have hmask : (buildingMask ds).map (fun b => !b)
        = (List.range (ds.tvals.length * ds.Z)).map
            (fun r => !(ds.datavars.all (fun dv => ((procVar dv).getD r none).isNone))) := by
      rw [buildingMask_eq ds (fun dv hdv => by simp [procVar, hlen dv hdv, htlen]),
        List.map_map, htlen]
      rfl
    show (if cc then (assembledDF gd ds).filter (fun c => c.2.any (fun v => v.isSome))
        else assembledDF gd ds).map
          (fun c => (c.1, applyRowMask ((buildingMask ds).map (fun b => !b)) c.2)) = _
    rw [hmask]
    rfl

/-- C8 witness: the amended pruning law at the masked-longitude fixture. -/
theorem C8_amended_pruning_witness :
    (∀ name : Str,
      (∃ col ∈ to_dataframe gdNan dsMaskedLongitude true false, col.1 = name) ↔
      (∃ col ∈ to_dataframe gdNan dsMaskedLongitude false false,
        col.1 = name ∧ ¬ ∀ v ∈ col.2, v = none)) ∧
    to_dataframe gdNan dsMaskedLongitude true true
      = (to_dataframe gdNan dsMaskedLongitude true false).map
        (fun col => (col.1, applyRowMask
          ((List.range (dsMaskedLongitude.tvals.length * dsMaskedLongitude.Z)).map
            (fun r => !(dsMaskedLongitude.datavars.all
              (fun dv => ((procVar dv).getD r none).isNone)))) col.2)) :=
  C8_amended_pruning gdNan dsMaskedLongitude true (by decide)

/-! ## Claim C5 -/

/-- The vertical column as the spec words prescribe it: repaired by
`generic_masked` under the variable attributes (valid range, else the float64
natural range) with non-finite masking, the fixed-precision rounding applied
after this repair.  Defined from the words of the claim, to compare with the
column the flattener actually builds. -/
def specRepairedZ (ds : ProfileDataset) : List Cell :=
  ((generic_masked ds.zvals ds.zattrs (-F64MAX) F64MAX none none true).map
    fix_invalid).map (roundCell 5)

/-- C5 counterexample: the flattener keeps the finite value 10 in the z
column although the variable declares `valid_max = 5`, while the repair the
claim describes masks it — `to_dataframe` never consults `generic_masked` or
the valid-range attributes. -/
theorem C5_counterexample_valid_range_ignored :
    dfColE (to_dataframe gdNan dsOutOfRangeZ false false) (("z").data) = .ok [some 10] ∧
    specRepairedZ dsOutOfRangeZ = [none] ∧
    dfColE (to_dataframe gdNan dsOutOfRangeZ false false) (("z").data)
      ≠ .ok (specRepairedZ dsOutOfRangeZ) := by
  have h1 : dfColE (to_dataframe gdNan dsOutOfRangeZ false false) (("z").data)
      = .ok [some 10] := by with_unfolding_all rfl
  have h2 : specRepairedZ dsOutOfRangeZ = [none] := by with_unfolding_all rfl
  refine ⟨h1, h2, ?_⟩
  rw [h1, h2]
  decide

/-- Replacing every attribute record of a dataset. -/
def withAttrs (ds : ProfileDataset) (a : VarAttrs) : ProfileDataset :=
  { ds with
    xattrs := a
    yattrs := a
    zattrs := a
    datavars := ds.datavars.map (fun dv => { dv with attrs := a }) }

/-- A cell holding nothing outside the finite float64 range. -/
def f64Rep (c : MCell) : Bool :=
  match c with
  | some (.fin q) => decide (-F64MAX ≤ q ∧ q ≤ F64MAX)
  | _ => true

theorem fix_invalid_of_keep (c : MCell) :
    fix_invalid (fix_invalid_keep c) = fix_invalid c := by
  rcases c with _ | v
  · rfl
  · cases v <;> rfl

theorem round_fix_comm (c : MCell) :
    fix_invalid (roundMCell 3 c) = roundCell 3 (fix_invalid c) := by
  rcases c with _ | v
  · rfl
  · cases v <;> rfl

/-- On arrays of float64-representable cells, `generic_masked` with no
attributes and the float64 natural range masks exactly the non-finite cells. -/
theorem generic_masked_no_attrs (arr : List MCell) (h : ∀ c ∈ arr, f64Rep c = true) :
    generic_masked arr {} (-F64MAX) F64MAX none none true = arr.map fix_invalid_keep := by
  show (arr.map fix_invalid_keep).map (masked_outside (-F64MAX) F64MAX)
    = arr.map fix_invalid_keep
  rw [List.map_map]
  refine List.map_congr_left (fun c hc => ?_)
  have hrep := h c hc
  rcases c with _ | v
  · rfl
  · cases v with
    | fin q =>
      simp only [f64Rep, decide_eq_true_eq] at hrep
      have h1 : ¬ (q < -F64MAX) := not_lt.mpr hrep.1
      have h2 : ¬ (q > F64MAX) := not_lt.mpr hrep.2
      simp [fix_invalid_keep, masked_outside, RVal.ltQ, RVal.gtQ, h1, h2]
    | nan => rfl
    | inf => rfl
    | ninf => rfl

/-- C5 (amended): the flattener's per-column repair is `np.ma.fix_invalid`
alone — it never reads the valid-range attributes (replacing every attribute
record leaves the table unchanged), and on representable data it coincides
with `generic_masked` under no attributes and the float64 natural range.
Rounding is applied after the repair for the vertical column and inside the
repair wrapper for the data variables, where the two orders agree. -/
theorem C5_amended_repair_is_fix_invalid (gd : GreatDistance) (ds : ProfileDataset)
    (a : VarAttrs) (cc cr : Bool)
    (hz : ∀ c ∈ ds.zvals, f64Rep c = true)
    (hnz : ∀ dv ∈ ds.datavars, dv.name ≠ ("z").data) :
    to_dataframe gd (withAttrs ds a) cc cr = to_dataframe gd ds cc cr ∧
    dfColE (to_dataframe gd ds false false) (("z").data)
      = .ok (((generic_masked ds.zvals {} (-F64MAX) F64MAX none none true).map
          fix_invalid).map (roundCell 5)) ∧
    (∀ dv ∈ ds.datavars, (∀ c ∈ dv.vals, f64Rep c = true) →
      procVar dv = ((generic_masked dv.vals {} (-F64MAX) F64MAX none none true).map
          fix_invalid).map (roundCell 3) ∧
      procVar dv = (dv.vals.map fix_invalid).map (roundCell 3)) := by
  refine ⟨?_, ?_, ?_⟩
  · have hassem : assembledDF gd (withAttrs ds a) = assembledDF gd ds := by
      simp only [assembledDF, withAttrs, List.foldl_map]
      rfl
    have hbm : buildingMask (withAttrs ds a) = buildingMask ds := by
      simp only [buildingMask, withAttrs, List.foldl_map]
      rfl
    simp only [to_dataframe, hassem, hbm]
  · have h2 : to_dataframe gd ds false false = assembledDF gd ds := rfl
    rw [h2]
    unfold assembledDF
    rw [dfColE_foldl_dfSet_ne hnz, generic_masked_no_attrs ds.zvals hz]
    have hmm : (ds.zvals.map fix_invalid_keep).map fix_invalid = ds.zvals.map fix_invalid := by
      rw [List.map_map]
      exact List.map_congr_left (fun c _ => fix_invalid_of_keep c)
    rw [hmm]
    rfl
  · intro dv hdv hrepv
    have hcomm : procVar dv = (dv.vals.map fix_invalid).map (roundCell 3) := by
      unfold procVar
      rw [List.map_map, List.map_map]
      exact List.map_congr_left (fun c _ => round_fix_comm c)
    refine ⟨?_, hcomm⟩
    rw [generic_masked_no_attrs dv.vals hrepv]
    have hmm : (dv.vals.map fix_invalid_keep).map fix_invalid = dv.vals.map fix_invalid := by
      rw [List.map_map]
      exact List.map_congr_left (fun c _ => fix_invalid_of_keep c)
    rw [hmm, hcomm]

/-- C5 witness: the amended repair law at the out-of-range fixture, with a
`valid_max` attribute swapped in to show it is ignored. -/
theorem C5_amended_repair_is_fix_invalid_witness :
    to_dataframe gdNan (withAttrs dsOutOfRangeZ { valid_max := some 5 }) true true
      = to_dataframe gdNan dsOutOfRangeZ true true ∧
    dfColE (to_dataframe gdNan dsOutOfRangeZ false false) (("z").data)
      = .ok (((generic_masked dsOutOfRangeZ.zvals {} (-F64MAX) F64MAX none none true).map
          fix_invalid).map (roundCell 5)) ∧
    (∀ dv ∈ dsOutOfRangeZ.datavars, (∀ c ∈ dv.vals, f64Rep c = true) →
      procVar dv = ((generic_masked dv.vals {} (-F64MAX) F64MAX none none true).map
          fix_invalid).map (roundCell 3) ∧
      procVar dv = (dv.vals.map fix_invalid).map (roundCell 3)) :=
  C5_amended_repair_is_fix_invalid gdNan dsOutOfRangeZ { valid_max := some 5 } true true
    (by decide) (by decide)

/-! ## Parsing lemmas for the codec claims -/

theorem NoChar_append {c : Char} {a b : List Char} (ha : NoChar c a) (hb : NoChar c b) :
    NoChar c (a ++ b) := fun x hx => (List.mem_append.mp hx).elim (ha x) (hb x)

theorem NoChar_cons {c x : Char} {s : List Char} (hx : x ≠ c) (hs : NoChar c s) :
    NoChar c (x :: s) := fun y hy => (List.mem_cons.mp hy).elim (fun h => h ▸ hx) (hs y)

theorem contains_eq_false {c : Char} {s : Str} (h : NoChar c s) : s.contains c = false := by
  rw [Bool.eq_false_iff]
  intro hc
  exact h c (List.elem_iff.mp hc) rfl

theorem contains_eq_true {c : Char} {s : Str} (h : c ∈ s) : s.contains c = true :=
  List.elem_iff.mpr h

/-- Parsing the canonical sensor URN shape produced by the encoder: the
authority, label and base name hold no colon or hash, and the clause suffix
holds no hash. -/
theorem from_string_sensor (a l sn B : Str)
    (ha : NoChar ':' a) (ha2 : NoChar '#' a)
    (hl : NoChar ':' l) (hl2 : NoChar '#' l)
    (hsn : NoChar ':' sn) (hsn2 : NoChar '#' sn)
    (hB : NoChar '#' B) :
    IoosUrn.from_string
        (("urn:ioos:sensor:").data ++ (a ++ (':' :: (l ++ (':' :: (sn ++ ('#' :: B)))))))
      = { asset_type := some (("sensor").data), authority := some a, label := some l,
          component := some (sn ++ '#' :: B), version := none } := by
  have hU : ("urn:ioos:sensor:").data ++ (a ++ (':' :: (l ++ (':' :: (sn ++ ('#' :: B))))))
      = (("urn:ioos:sensor:").data ++ (a ++ (':' :: (l ++ (':' :: sn))))) ++ '#' :: B := by
    simp [List.append_assoc]
  have hAnc : NoChar '#' (("urn:ioos:sensor:").data ++ (a ++ (':' :: (l ++ (':' :: sn))))) :=
    NoChar_append (by decide)
      (NoChar_append ha2 (NoChar_cons (by decide)
        (NoChar_append hl2 (NoChar_cons (by decide) hsn2))))
  have hA : ("urn:ioos:sensor:").data ++ (a ++ (':' :: (l ++ (':' :: sn))))
      = ("urn").data ++ (':' :: (("ioos").data ++ (':' :: (("sensor").data
          ++ (':' :: (a ++ (':' :: (l ++ (':' :: sn))))))))) := rfl
  unfold IoosUrn.from_string
  rw [hU, splitOnChar_append B hAnc, splitOnChar_eq_single hB]
  simp only [List.headD_cons, List.length_cons, List.length_nil]
  rw [hA, splitOnChar_append _ (by decide), splitOnChar_append _ (by decide),
    splitOnChar_append _ (by decide), splitOnChar_append _ ha,
    splitOnChar_append _ hl, splitOnChar_eq_single hsn]
  unfold IoosUrn.ofParts
  norm_num [List.getD]

theorem dictSet_nil (k v : Str) : dictSet [] k v = [(k, v)] := rfl

theorem dictSet_cons_eq (k v0 v : Str) (rest : PyDict) :
    dictSet ((k, v0) :: rest) k v = (k, v) :: rest := by
  simp [dictSet]

theorem dictSet_cons_ne {k0 k : Str} (h : k0 ≠ k) (v0 v : Str) (rest : PyDict) :
    dictSet ((k0, v0) :: rest) k v = (k0, v0) :: dictSet rest k v := by
  simp [dictSet, h]

theorem dictGet?_cons_eq (k v : Str) (rest : PyDict) :
    dictGet? ((k, v) :: rest) k = some v := by
  simp [dictGet?, List.find?]

theorem dictGet?_cons_ne {k0 k : Str} (h : k0 ≠ k) (v0 : Str) (rest : PyDict) :
    dictGet? ((k0, v0) :: rest) k = dictGet? rest k := by
  have hb : (k0 == k) = false := by simpa using h
  simp [dictGet?, List.find?, hb]

theorem dictGet?_nil (k : Str) : dictGet? [] k = none := rfl

theorem dictHas_cons (k0 v0 k : Str) (rest : PyDict) :
    dictHas ((k0, v0) :: rest) k = ((k0 == k) || dictHas rest k) := by
  simp [dictHas]

/-! ## Claim C10 -/

/-- C10: the decoder reports a discriminant whenever a hyphen occurs anywhere
in the URN component, including when it occurs only in the clause text after
the `#`; when the base name itself holds no hyphen, the reported discriminant
equals the reported standard_name — the unsplit base name. -/
theorem C10_discriminant_from_clause_hyphen (a l sn k v : Str)
    (ha : NoChar ':' a) (ha2 : NoChar '#' a)
    (hl : NoChar ':' l) (hl2 : NoChar '#' l)
    (hsn : NoChar ':' sn) (hsn2 : NoChar '#' sn) (hsn3 : NoChar '-' sn)
    (hk1 : NoChar ';' k) (hk2 : NoChar '=' k) (hk3 : NoChar '#' k)
    (hv1 : NoChar ';' v) (hv2 : NoChar '=' v) (hv3 : NoChar '#' v)
    (hdash : '-' ∈ v)
    (hki : k ≠ ("interval").data) (hkc : k ≠ ("cell_methods").data)
    (hks : k ≠ ("standard_name").data) (hkd : k ≠ ("discriminant").data)
    (hkv : k ≠ ("vertical_datum").data) :
    ∃ d, dictify_urn
        (("urn:ioos:sensor:").data ++ (a ++ (':' :: (l ++ (':' :: (sn ++ ('#' :: (k ++ '=' :: v))))))))
        true = .ok d ∧
      dictGet? d (("discriminant").data) = some sn ∧
      dictGet? d (("standard_name").data) = some sn := by
  have hB : NoChar '#' (k ++ '=' :: v) :=
    NoChar_append hk3 (NoChar_cons (by decide) hv3)
  have hparse := from_string_sensor a l sn (k ++ '=' :: v) ha ha2 hl hl2 hsn hsn2 hB
  have hcomp : (sn ++ '#' :: (k ++ '=' :: v)).contains '#' = true :=
    contains_eq_true (List.mem_append.mpr (Or.inr (List.mem_cons_self _ _)))
  have hdashmem : '-' ∈ sn ++ '#' :: (k ++ '=' :: v) :=
    List.mem_append.mpr (Or.inr (List.mem_cons_of_mem _
      (List.mem_append.mpr (Or.inr (List.mem_cons_of_mem _ hdash)))))
  have hsplit : splitOnChar '#' (sn ++ '#' :: (k ++ '=' :: v)) = [sn, k ++ '=' :: v] := by
    rw [splitOnChar_append _ hsn2, splitOnChar_eq_single hB]
  have hsec : splitOnChar '=' (k ++ '=' :: v) = [k, v] := by
    rw [splitOnChar_append _ hk2, splitOnChar_eq_single hv2]
  have hBne : k ++ '=' :: v ≠ [] := by simp
  have hsections : splitOnChar ';' (k ++ '=' :: v) = [k ++ '=' :: v] :=
    splitOnChar_eq_single (NoChar_append hk1 (NoChar_cons (by decide) hv1))
  have hdashc : List.contains (sn ++ '#' :: (k ++ '=' :: v)) '-' = true :=
    contains_eq_true hdashmem
  have hsd : (("standard_name").data : Str) ≠ ("discriminant").data := by decide
  have hsk : (("standard_name").data : Str) ≠ k := Ne.symm hks
  have hdk : (("discriminant").data : Str) ≠ k := Ne.symm hkd
  have hsvb : ((("standard_name").data : Str) == ("vertical_datum").data) = false := by decide
  have hdvb : ((("discriminant").data : Str) == ("vertical_datum").data) = false := by decide
  have hkvb : (k == ("vertical_datum").data) = false := by simpa using hkv
  simp only [dictify_urn]
  rw [hparse]
  have hcm : '#' ∈ sn ++ '#' :: (k ++ '=' :: v) :=
    List.mem_append.mpr (Or.inr (List.mem_cons_self _ _))
  have hbase : dBaseDict (sn ++ '#' :: (k ++ '=' :: v)) sn
      = [(("standard_name").data, sn), (("discriminant").data, sn)] := by
    simp [dBaseDict, hdashc, hdashmem, hdash, splitOnChar_eq_single hsn3,
      dictSet_cons_ne hsd, dictSet_cons_eq, dictSet_nil]
  have hsplitc : dSplitComponent (sn ++ '#' :: (k ++ '=' :: v))
      = .ok (sn, k ++ '=' :: v) := by
    simp [dSplitComponent, hcomp, hcm, hsplit]
  have hclauses : dClauses [(("standard_name").data, sn), (("discriminant").data, sn)]
      (k ++ '=' :: v)
      = .ok ([(("standard_name").data, sn), (("discriminant").data, sn),
          (k, joinSep ' ' ((splitOnChar ',' v).map clauseValueFix))], [], []) := by
    simp [dClauses, hsections, List.foldlM_cons, List.foldlM_nil, processClause, hsec,
      hki, hkc, dictSet_cons_ne hsk, dictSet_cons_ne hdk, dictSet_nil]
  have hvd : dVdFix [(("standard_name").data, sn), (("discriminant").data, sn),
      (k, joinSep ' ' ((splitOnChar ',' v).map clauseValueFix))]
      = [(("standard_name").data, sn), (("discriminant").data, sn),
         (k, joinSep ' ' ((splitOnChar ',' v).map clauseValueFix))] := by
    simp [dVdFix, dictHas_cons, hsvb, hdvb, hkvb, dictHas]
  simp [IoosUrn.valid, hsplitc, hbase, hclauses, hvd, dCombine,
    dictGet?_cons_ne hsd, dictGet?_cons_eq]

/-- C10 witness: a hyphen occurring only inside a bounds clause makes the
decoder report discriminant = standard_name = the unsplit base name. -/
theorem C10_discriminant_from_clause_hyphen_witness :
    ∃ d, dictify_urn
        (("urn:ioos:sensor:").data ++ ((("a").data) ++ (':' :: ((("b").data) ++
          (':' :: ((("air_temp").data) ++ ('#' :: ((("bounds").data) ++
            '=' :: (("navd-88").data)))))))))
        true = .ok d ∧
      dictGet? d (("discriminant").data) = some (("air_temp").data) ∧
      dictGet? d (("standard_name").data) = some (("air_temp").data) :=
  C10_discriminant_from_clause_hyphen ("a").data ("b").data ("air_temp").data
    ("bounds").data ("navd-88").data (by decide) (by decide) (by decide) (by decide)
    (by decide) (by decide) (by decide) (by decide) (by decide) (by decide) (by decide)
    (by decide) (by decide) (by decide) (by decide) (by decide) (by decide) (by decide)
    (by decide)

/-! ## Claim C3 -/

theorem joinSep_single (c : Char) (x : Str) : joinSep c [x] = x := by
  simp [joinSep, List.intercalate]

theorem joinSep_pair (c : Char) (x y : Str) : joinSep c [x, y] = x ++ c :: y := by
  simp [joinSep, List.intercalate, List.intersperse]

/-- C3 counterexample: encoding a record carrying one interval token and no
cell_methods does not fail — `urnify_from_dict` happily emits the identifier
string, with the interval clause and no cell_methods clause. -/
theorem C3_counterexample_encoder_succeeds :
    urnify_from_dict ("a").data ("b").data ("r").data
        { standard_name := ("temp").data, interval := [("1 HOUR").data] }
      = .ok (some (("urn:ioos:sensor:a:b:temp#interval=1 HOUR").data)) ∧
    urnify_from_dict ("a").data ("b").data ("r").data
        { standard_name := ("temp").data, interval := [("1 HOUR").data] }
      ≠ .error .valueError := by
  decide

/-- C3 (amended): the encoder emits the identifier for a record with interval
tokens and no cell_methods; the structural-grammar `ValueError` is raised by
the decoder (`dictify_urn` with `combine_interval` set, its default) when it
meets the interval clause with no cell_methods clause. -/
theorem C3_amended_interval_error_on_decode (a l rng sn iv k : Str)
    (hk : k = ("interval").data)
    (hsn0 : sn ≠ []) (hsn1 : NoChar '#' sn) (hsn2 : NoChar ':' sn)
    (ha1 : NoChar ':' a) (ha2 : NoChar '#' a)
    (hl1 : NoChar ':' l) (hl2 : NoChar '#' l)
    (hi1 : NoChar ';' iv) (hi2 : NoChar '=' iv) (hi3 : NoChar '#' iv) :
    urnify_from_dict a l rng { standard_name := sn, interval := [iv] }
      = .ok (some (("urn:ioos:sensor:").data ++ (a ++ (':' :: (l ++ (':' ::
          (sn ++ ('#' :: (k ++ '=' :: iv))))))))) ∧
    dictify_urn (("urn:ioos:sensor:").data ++ (a ++ (':' :: (l ++ (':' ::
        (sn ++ ('#' :: (k ++ '=' :: iv)))))))) true
      = .error .valueError := by
  constructor
  · subst hk
    simp [urnify_from_dict, hsn0, IoosUrn.urnStr, IoosUrn.valid, joinSep_single]
  · have hkE : NoChar '=' k := by rw [hk]; decide
    have hkS : NoChar ';' k := by rw [hk]; decide
    have hkH : NoChar '#' k := by rw [hk]; decide
    have hB : NoChar '#' (k ++ '=' :: iv) :=
      NoChar_append hkH (NoChar_cons (by decide) hi3)
    have hparse := from_string_sensor a l sn (k ++ '=' :: iv)
      ha1 ha2 hl1 hl2 hsn2 hsn1 hB
    have hcm : '#' ∈ sn ++ '#' :: (k ++ '=' :: iv) :=
      List.mem_append.mpr (Or.inr (List.mem_cons_self _ _))
    have hsplit : splitOnChar '#' (sn ++ '#' :: (k ++ '=' :: iv))
        = [sn, k ++ '=' :: iv] := by
      rw [splitOnChar_append _ hsn1, splitOnChar_eq_single hB]
    have hsplitc : dSplitComponent (sn ++ '#' :: (k ++ '=' :: iv))
        = .ok (sn, k ++ '=' :: iv) := by
      simp [dSplitComponent, hcm, hsplit]
    have hsections : splitOnChar ';' (k ++ '=' :: iv) = [k ++ '=' :: iv] :=
      splitOnChar_eq_single (NoChar_append hkS (NoChar_cons (by decide) hi1))
    have hsec : splitOnChar '=' (k ++ '=' :: iv) = [k, iv] := by
      rw [splitOnChar_append _ hkE, splitOnChar_eq_single hi2]
    have hkT : (k = ("interval").data) = True := by simp [hk]
    have hclauses : ∀ d : PyDict, dClauses d (k ++ '=' :: iv)
        = .ok (d, splitOnChar ',' iv, []) := by
      intro d
      simp [dClauses, hsections, List.foldlM_cons, List.foldlM_nil, processClause,
        hsec, hkT]
    have hcomb : ∀ d : PyDict, dCombine true d (splitOnChar ',' iv) []
        = .error .valueError := by
      intro d
      simp [dCombine, splitOnChar_ne_nil]
    simp only [dictify_urn]
    rw [hparse]
    simp [IoosUrn.valid, hsplitc, hclauses, hcomb]

theorem C3_amended_interval_error_on_decode_witness :
    urnify_from_dict ("a").data ("b").data ("r").data
        { standard_name := ("temp").data, interval := [("1 HOUR").data] }
      = .ok (some (("urn:ioos:sensor:").data ++ ((("a").data) ++ (':' ::
          ((("b").data) ++ (':' :: ((("temp").data) ++ ('#' ::
            ((("interval").data) ++ '=' :: (("1 HOUR").data)))))))))) ∧
    dictify_urn (("urn:ioos:sensor:").data ++ ((("a").data) ++ (':' ::
        ((("b").data) ++ (':' :: ((("temp").data) ++ ('#' ::
          ((("interval").data) ++ '=' :: (("1 HOUR").data))))))))) true
      = .error .valueError :=
  C3_amended_interval_error_on_decode ("a").data ("b").data ("r").data
    ("temp").data ("1 HOUR").data ("interval").data (by decide) (by decide)
    (by decide) (by decide) (by decide) (by decide) (by decide) (by decide)
    (by decide) (by decide) (by decide)

/-! ## Claim C2 -/

/-- Accumulation step of the `cell_methods` character scan: over a colon-free
stretch of text the scan only extends `sofar`. -/
theorem cmScan_accum (cm : Str) (s : Str) (h : NoChar ':' s) :
    ∀ (n : ℕ) (st : CMParse),
      List.foldl (cmStep cm) st (List.enumFrom n s) = { st with sofar := st.sofar ++ s } := by
  induction s with
  | nil => intro n st; simp
  | cons x xs ih =>
    intro n st
    have hx : x ≠ ':' := h x (List.mem_cons_self x xs)
    have hxs : NoChar ':' xs := fun y hy => h y (List.mem_cons_of_mem x hy)
    show List.foldl (cmStep cm) (cmStep cm st (n, x)) (List.enumFrom (n + 1) xs) = _
    rw [show cmStep cm st (n, x) = { st with sofar := st.sofar ++ [x] } from by
      simp [cmStep, hx]]
    rw [ih hxs (n + 1)]
    simp

/-- Stripping a single leading space from whitespace-free text. -/
theorem stripWs_space_cons {s : Str} (h : NoWs s) : stripWs (' ' :: s) = s := by
  have : lstripWs (' ' :: s) = s := by
    simp [lstripWs, lstripWs_eq_self h]
  rw [stripWs, this, lstripWs_eq_self (fun x hx => h x (List.mem_reverse.mp hx)),
    List.reverse_reverse]

/-- Whitespace-free text contains no space. -/
theorem NoChar_space_of_NoWs {s : Str} (h : NoWs s) : NoChar ' ' s :=
  fun x hx he => h x hx (by rw [he]; decide)

/-- `clean_value` fixes text free of parentheses and whitespace. -/
theorem clean_value_eq_self {s : Str} (h1 : NoChar '(' s) (h2 : NoChar ')' s)
    (h3 : NoWs s) : clean_value s = s := by
  simp [clean_value, replaceChar_eq_self h1, replaceChar_eq_self h2,
    stripWs_eq_self h3, replaceChar_eq_self (NoChar_space_of_NoWs h3)]

/-- `clean_value` strips a single leading space. -/
theorem clean_value_space_cons {s : Str} (h1 : NoChar '(' s) (h2 : NoChar ')' s)
    (h3 : NoWs s) : clean_value (' ' :: s) = s := by
  have h1' : NoChar '(' (' ' :: s) := NoChar_cons (by decide) h1
  have h2' : NoChar ')' (' ' :: s) := NoChar_cons (by decide) h2
  simp [clean_value, replaceChar_eq_self h1', replaceChar_eq_self h2',
    stripWs_space_cons h3, replaceChar_eq_self (NoChar_space_of_NoWs h3)]

/-- The full `cell_methods` scan of `dom: meth` (one domain, one colon): one
key (the cleaned domain) and the pending text ` meth`. -/
theorem cmScan_full (dom meth : Str) (hd : NoChar ':' dom) (hm : NoChar ':' meth) :
    List.foldl (cmStep (dom ++ ':' :: ' ' :: meth)) {} (dom ++ ':' :: ' ' :: meth).enum
      = { keys := [clean_value dom], vals := [], sofar := ' ' :: meth } := by
  rw [show (dom ++ ':' :: ' ' :: meth).enum
      = List.enumFrom 0 (dom ++ ':' :: ' ' :: meth) from rfl]
  rw [List.enumFrom_append, List.foldl_append]
  rw [cmScan_accum _ dom hd]
  show List.foldl _ (cmStep _ { sofar := [] ++ dom } (0 + dom.length, ':'))
      (List.enumFrom (0 + dom.length + 1) (' ' :: meth)) = _
  rw [show cmStep (dom ++ ':' :: ' ' :: meth) { sofar := [] ++ dom }
        (0 + dom.length, ':')
      = { keys := [clean_value ([] ++ dom)], vals := [], sofar := [] } from by
    simp [cmStep]]
  show List.foldl _ (cmStep _ _ (0 + dom.length + 1, ' ')) (List.enumFrom _ meth) = _
  rw [show cmStep (dom ++ ':' :: ' ' :: meth)
        { keys := [clean_value ([] ++ dom)], vals := [], sofar := [] }
        (0 + dom.length + 1, ' ')
      = { keys := [clean_value ([] ++ dom)], vals := [], sofar := [' '] } from by
    simp [cmStep]]
  rw [cmScan_accum _ meth hm]
  simp

/-- C2 (amended): the round-trip law holds once the record fields stay inside
the URN-safe character set: `standard_name` free of `#`, `:` and `-`,
the method free of structural characters, underscores, parentheses and
whitespace, and an interval token free of structural characters and stable
under uppercasing.  Encoding yields the sensor URN; decoding with
`combine_interval` reproduces the standard name, no discriminant, and the
cell_methods value `dom: meth (interval: IV)`; decoding without it reproduces
the cell_methods entry `dom: meth` and the interval token exactly. -/
theorem C2_amended_charset_roundtrip (a l rng sn dom meth iv k1 k2 : Str)
    (hk1 : k1 = ("cell_methods").data) (hk2 : k2 = ("interval").data)
    (hdom : dom = ("time").data ∨ dom = ("area").data)
    (hsn0 : sn ≠ []) (hsn1 : NoChar '#' sn) (hsn2 : NoChar ':' sn) (hsn3 : NoChar '-' sn)
    (ha1 : NoChar ':' a) (ha2 : NoChar '#' a)
    (hl1 : NoChar ':' l) (hl2 : NoChar '#' l)
    (hm1 : NoChar ':' meth) (hm2 : NoChar ',' meth) (hm3 : NoChar ';' meth)
    (hm4 : NoChar '#' meth) (hm5 : NoChar '-' meth) (hm6 : NoChar '=' meth)
    (hm7 : NoChar '(' meth) (hm8 : NoChar ')' meth) (hm9 : NoChar '_' meth)
    (hm10 : NoWs meth)
    (hi1 : NoChar ',' iv) (hi2 : NoChar ';' iv) (hi3 : NoChar '=' iv)
    (hi4 : NoChar '#' iv) (hi5 : NoChar '-' iv) (hiU : pyUpper iv = iv) :
    urnify_from_dict a l rng
        { standard_name := sn, cell_methods := dom ++ ':' :: ' ' :: meth,
          interval := [iv] }
      = .ok (some (("urn:ioos:sensor:").data ++ (a ++ (':' :: (l ++ (':' ::
          (sn ++ ('#' :: ((k1 ++ '=' :: (dom ++ ':' :: meth))
            ++ ';' :: (k2 ++ '=' :: iv)))))))))) ∧
    (∃ d, dictify_urn (("urn:ioos:sensor:").data ++ (a ++ (':' :: (l ++ (':' ::
          (sn ++ ('#' :: ((k1 ++ '=' :: (dom ++ ':' :: meth))
            ++ ';' :: (k2 ++ '=' :: iv))))))))) true = .ok d ∧
      dictGet? d (("standard_name").data) = some sn ∧
      dictGet? d (("discriminant").data) = none ∧
      dictGet? d (("cell_methods").data)
        = some ((dom ++ ':' :: ' ' :: meth) ++ (" (interval: ").data ++ iv ++ [')'])) ∧
    (∃ d, dictify_urn (("urn:ioos:sensor:").data ++ (a ++ (':' :: (l ++ (':' ::
          (sn ++ ('#' :: ((k1 ++ '=' :: (dom ++ ':' :: meth))
            ++ ';' :: (k2 ++ '=' :: iv))))))))) false = .ok d ∧
      dictGet? d (("standard_name").data) = some sn ∧
      dictGet? d (("cell_methods").data) = some (dom ++ ':' :: ' ' :: meth) ∧
      dictGet? d (("interval").data) = some iv) := by
  have hdC : NoChar ':' dom := by rcases hdom with h | h <;> (rw [h]; decide)
  have hdComma : NoChar ',' dom := by rcases hdom with h | h <;> (rw [h]; decide)
  have hdSemi : NoChar ';' dom := by rcases hdom with h | h <;> (rw [h]; decide)
  have hdHash : NoChar '#' dom := by rcases hdom with h | h <;> (rw [h]; decide)
  have hdDash : NoChar '-' dom := by rcases hdom with h | h <;> (rw [h]; decide)
  have hdEq : NoChar '=' dom := by rcases hdom with h | h <;> (rw [h]; decide)
  have hdLP : NoChar '(' dom := by rcases hdom with h | h <;> (rw [h]; decide)
  have hdRP : NoChar ')' dom := by rcases hdom with h | h <;> (rw [h]; decide)
  have hdUnd : NoChar '_' dom := by rcases hdom with h | h <;> (rw [h]; decide)
  have hdWs : NoWs dom := by rcases hdom with h | h <;> (rw [h]; decide)
  have hdIvF : (dom = ("interval").data) = False := by
    rcases hdom with h | h <;> simp [h]
  have hdTAT : (dom = ("time").data ∨ dom = ("area").data) = True := eq_true hdom
  have hk1a : NoChar ';' k1 := by rw [hk1]; decide
  have hk1b : NoChar '=' k1 := by rw [hk1]; decide
  have hk1c : NoChar '#' k1 := by rw [hk1]; decide
  have hk1d : NoChar '-' k1 := by rw [hk1]; decide
  have hk2a : NoChar ';' k2 := by rw [hk2]; decide
  have hk2b : NoChar '=' k2 := by rw [hk2]; decide
  have hk2c : NoChar '#' k2 := by rw [hk2]; decide
  have hk2d : NoChar '-' k2 := by rw [hk2]; decide
  have hk1IvF : (k1 = ("interval").data) = False := by simp [hk1]
  have hk1CmT : (k1 = ("cell_methods").data) = True := by simp [hk1]
  have hk2IvT : (k2 = ("interval").data) = True := by simp [hk2]
  have hB : NoChar '#' ((k1 ++ '=' :: (dom ++ ':' :: meth))
      ++ ';' :: (k2 ++ '=' :: iv)) :=
    NoChar_append
      (NoChar_append hk1c (NoChar_cons (by decide)
        (NoChar_append hdHash (NoChar_cons (by decide) hm4))))
      (NoChar_cons (by decide) (NoChar_append hk2c (NoChar_cons (by decide) hi4)))
  have hparse := from_string_sensor a l sn
    ((k1 ++ '=' :: (dom ++ ':' :: meth)) ++ ';' :: (k2 ++ '=' :: iv))
    ha1 ha2 hl1 hl2 hsn2 hsn1 hB
  have hcm : '#' ∈ sn ++ '#' :: ((k1 ++ '=' :: (dom ++ ':' :: meth))
      ++ ';' :: (k2 ++ '=' :: iv)) :=
    List.mem_append.mpr (Or.inr (List.mem_cons_self _ _))
  have hsplit : splitOnChar '#' (sn ++ '#' :: ((k1 ++ '=' :: (dom ++ ':' :: meth))
      ++ ';' :: (k2 ++ '=' :: iv)))
      = [sn, (k1 ++ '=' :: (dom ++ ':' :: meth)) ++ ';' :: (k2 ++ '=' :: iv)] := by
    rw [splitOnChar_append _ hsn1, splitOnChar_eq_single hB]
  have hnodash : NoChar '-' (sn ++ '#' :: ((k1 ++ '=' :: (dom ++ ':' :: meth))
      ++ ';' :: (k2 ++ '=' :: iv))) :=
    NoChar_append hsn3 (NoChar_cons (by decide)
      (NoChar_append
        (NoChar_append hk1d (NoChar_cons (by decide)
          (NoChar_append hdDash (NoChar_cons (by decide) hm5))))
        (NoChar_cons (by decide)
          (NoChar_append hk2d (NoChar_cons (by decide) hi5)))))
  have hS1 : NoChar ';' (k1 ++ '=' :: (dom ++ ':' :: meth)) :=
    NoChar_append hk1a (NoChar_cons (by decide)
      (NoChar_append hdSemi (NoChar_cons (by decide) hm3)))
  have hS2 : NoChar ';' (k2 ++ '=' :: iv) :=
    NoChar_append hk2a (NoChar_cons (by decide) hi2)
  have hsections : splitOnChar ';' ((k1 ++ '=' :: (dom ++ ':' :: meth))
      ++ ';' :: (k2 ++ '=' :: iv))
      = [k1 ++ '=' :: (dom ++ ':' :: meth), k2 ++ '=' :: iv] := by
    rw [splitOnChar_append _ hS1, splitOnChar_eq_single hS2]
  have hV1e : NoChar '=' (dom ++ ':' :: meth) :=
    NoChar_append hdEq (NoChar_cons (by decide) hm6)
  have hsec1 : splitOnChar '=' (k1 ++ '=' :: (dom ++ ':' :: meth))
      = [k1, dom ++ ':' :: meth] := by
    rw [splitOnChar_append _ hk1b, splitOnChar_eq_single hV1e]
  have hsec2 : splitOnChar '=' (k2 ++ '=' :: iv) = [k2, iv] := by
    rw [splitOnChar_append _ hk2b, splitOnChar_eq_single hi3]
  simp only [List.append_assoc, List.cons_append] at hparse hcm hsplit hnodash
  simp only [List.append_assoc, List.cons_append] at hsections hsec1
  have hsplitc : dSplitComponent (sn ++ '#' :: (k1 ++ '=' :: (dom ++ ':' ::
      (meth ++ ';' :: (k2 ++ '=' :: iv)))))
      = .ok (sn, k1 ++ '=' :: (dom ++ ':' :: (meth ++ ';' :: (k2 ++ '=' :: iv)))) := by
    simp [dSplitComponent, hcm, hsplit]
  have hbase : dBaseDict (sn ++ '#' :: (k1 ++ '=' :: (dom ++ ':' ::
      (meth ++ ';' :: (k2 ++ '=' :: iv))))) sn = [(("standard_name").data, sn)] := by
    have hns : '-' ∉ sn := fun h => hsn3 '-' h rfl
    have hnk1 : '-' ∉ k1 := fun h => hk1d '-' h rfl
    have hnd : '-' ∉ dom := fun h => hdDash '-' h rfl
    have hnm : '-' ∉ meth := fun h => hm5 '-' h rfl
    have hnk2 : '-' ∉ k2 := fun h => hk2d '-' h rfl
    have hni : '-' ∉ iv := fun h => hi5 '-' h rfl
    simp [dBaseDict, contains_eq_false hnodash, hns, hnk1, hnd, hnm, hnk2, hni]
  have hV1c : NoChar ',' (dom ++ ':' :: meth) :=
    NoChar_append hdComma (NoChar_cons (by decide) hm2)
  have hV1u : NoChar '_' (dom ++ ':' :: meth) :=
    NoChar_append hdUnd (NoChar_cons (by decide) hm9)
  have hfix : clauseValueFix (dom ++ ':' :: meth) = dom ++ ':' :: ' ' :: meth := by
    unfold clauseValueFix
    rw [replaceChar_eq_self hV1u, replaceChar_append, replaceChar_eq_self hdC,
      replaceChar_cons_self, replaceChar_eq_self hm1]
    rfl
  have hclauses : ∀ d : PyDict, dClauses d (k1 ++ '=' :: (dom ++ ':' ::
      (meth ++ ';' :: (k2 ++ '=' :: iv))))
      = .ok (d, [iv], [dom ++ ':' :: ' ' :: meth]) := by
    intro d
    simp [dClauses, hsections, List.foldlM_cons, List.foldlM_nil, processClause,
      hsec1, hsec2, hk1IvF, hk1CmT, hk2IvT, splitOnChar_eq_single hV1c,
      splitOnChar_eq_single hi1, hfix]
    rfl
  have hcombT : ∀ d : PyDict, dCombine true d [iv] [dom ++ ':' :: ' ' :: meth]
      = .ok (dictSet d (("cell_methods").data)
          ((dom ++ ':' :: ' ' :: meth) ++ (" (interval: ").data ++ iv ++ [')'])) := by
    intro d
    simp [dCombine, joinSep_single, hiU]
  have hcombF : ∀ d : PyDict, dCombine false d [iv] [dom ++ ':' :: ' ' :: meth]
      = .ok (dictSet (dictSet d (("cell_methods").data) (dom ++ ':' :: ' ' :: meth))
          (("interval").data) iv) := by
    intro d
    simp [dCombine, joinSep_single, hiU]
  have hsnc : (("standard_name").data : Str) ≠ ("cell_methods").data := by decide
  have hsnd : (("standard_name").data : Str) ≠ ("discriminant").data := by decide
  have hcmd : (("cell_methods").data : Str) ≠ ("discriminant").data := by decide
  have hsni : (("standard_name").data : Str) ≠ ("interval").data := by decide
  have hcmi : (("cell_methods").data : Str) ≠ ("interval").data := by decide
  have hsvb : ((("standard_name").data : Str) == ("vertical_datum").data) = false := by
    decide
  have hcvb : ((("cell_methods").data : Str) == ("vertical_datum").data) = false := by
    decide
  have hivb : ((("interval").data : Str) == ("vertical_datum").data) = false := by decide
  have hvdT : ∀ x : Str, dVdFix [(("standard_name").data, sn),
      (("cell_methods").data, x)]
      = [(("standard_name").data, sn), (("cell_methods").data, x)] := by
    intro x
    simp [dVdFix, dictHas_cons, hsvb, hcvb, dictHas]
  have hvdF : ∀ x y : Str, dVdFix [(("standard_name").data, sn),
      (("cell_methods").data, x), (("interval").data, y)]
      = [(("standard_name").data, sn), (("cell_methods").data, x),
         (("interval").data, y)] := by
    intro x y
    simp [dVdFix, dictHas_cons, hsvb, hcvb, hivb, dictHas]
  refine ⟨?_, ?_, ?_⟩
  · subst hk1
    subst hk2
    have hscan := cmScan_full dom meth hdC hm1
    rw [clean_value_eq_self hdLP hdRP hdWs] at hscan
    simp only [urnify_from_dict]
    rw [hscan]
    simp [hsn0, IoosUrn.urnStr, IoosUrn.valid, joinSep_single, joinSep_pair,
      clean_value_space_cons hm7 hm8 hm10, hdIvF, hdTAT, sortPairs, insertSorted,
      groupByKey]
  · simp only [dictify_urn]
    simp only [List.append_assoc, List.cons_append]
    rw [hparse]
    simp [IoosUrn.valid, hsplitc, hbase, hclauses, hcombT, hvdT,
      dictSet_cons_ne hsnc, dictSet_nil,
      dictGet?_cons_ne hsnd, dictGet?_cons_ne hcmd, dictGet?_cons_ne hsnc,
      dictGet?_cons_eq, dictGet?_nil]
  · simp only [dictify_urn]
    simp only [List.append_assoc, List.cons_append]
    rw [hparse]
    simp [IoosUrn.valid, hsplitc, hbase, hclauses, hcombF, hvdF,
      dictSet_cons_ne hsnc, dictSet_cons_ne hsni, dictSet_cons_ne hcmi, dictSet_nil,
      dictGet?_cons_ne hsnd, dictGet?_cons_ne hcmd, dictGet?_cons_ne hsnc,
      dictGet?_cons_ne hsni, dictGet?_cons_ne hcmi,
      dictGet?_cons_eq, dictGet?_nil]

/-- C2 counterexample: a record whose standard name carries a hyphen
(`sea-water`) breaks the round-trip law as claimed — the encoder accepts it
unchanged, but the decoder splits the base name at the hyphen and returns
standard_name `sea` with discriminant `water`. -/
theorem C2_counterexample_hyphen_standard_name :
    urnify_from_dict ("a").data ("b").data ("r").data
        { standard_name := ("sea-water").data, cell_methods := ("time: mean").data,
          interval := [("1 HOUR").data] }
      = .ok (some (("urn:ioos:sensor:a:b:sea-water#cell_methods=time:mean;interval=1 HOUR").data)) ∧
    (dictify_urn
        (("urn:ioos:sensor:a:b:sea-water#cell_methods=time:mean;interval=1 HOUR").data)
        true).map
        (fun d => (dictGet? d (("standard_name").data), dictGet? d (("discriminant").data)))
      = .ok (some (("sea").data), some (("water").data)) ∧
    (("sea").data : Str) ≠ ("sea-water").data := by decide


theorem C2_amended_charset_roundtrip_witness :
    urnify_from_dict ("a").data ("b").data ("r").data
        { standard_name := ("air_temp").data, cell_methods := ("time").data ++ ':' :: ' ' :: ("mean").data,
          interval := [("1 HOUR").data] }
      = .ok (some (("urn:ioos:sensor:").data ++ (("a").data ++ (':' :: (("b").data ++ (':' ::
          (("air_temp").data ++ ('#' :: ((("cell_methods").data ++ '=' :: (("time").data ++ ':' :: ("mean").data))
            ++ ';' :: (("interval").data ++ '=' :: ("1 HOUR").data)))))))))) ∧
    (∃ d, dictify_urn (("urn:ioos:sensor:").data ++ (("a").data ++ (':' :: (("b").data ++ (':' ::
          (("air_temp").data ++ ('#' :: ((("cell_methods").data ++ '=' :: (("time").data ++ ':' :: ("mean").data))
            ++ ';' :: (("interval").data ++ '=' :: ("1 HOUR").data))))))))) true = .ok d ∧
      dictGet? d (("standard_name").data) = some ("air_temp").data ∧
      dictGet? d (("discriminant").data) = none ∧
      dictGet? d (("cell_methods").data)
        = some ((("time").data ++ ':' :: ' ' :: ("mean").data) ++ (" (interval: ").data ++ ("1 HOUR").data ++ [')'])) ∧
    (∃ d, dictify_urn (("urn:ioos:sensor:").data ++ (("a").data ++ (':' :: (("b").data ++ (':' ::
          (("air_temp").data ++ ('#' :: ((("cell_methods").data ++ '=' :: (("time").data ++ ':' :: ("mean").data))
            ++ ';' :: (("interval").data ++ '=' :: ("1 HOUR").data))))))))) false = .ok d ∧
      dictGet? d (("standard_name").data) = some ("air_temp").data ∧
      dictGet? d (("cell_methods").data) = some (("time").data ++ ':' :: ' ' :: ("mean").data) ∧
      dictGet? d (("interval").data) = some ("1 HOUR").data) :=
  C2_amended_charset_roundtrip ("a").data ("b").data ("r").data ("air_temp").data
    ("time").data ("mean").data ("1 HOUR").data ("cell_methods").data ("interval").data
    (by decide) (by decide) (by decide) (by decide) (by decide) (by decide) (by decide)
    (by decide) (by decide) (by decide) (by decide) (by decide) (by decide) (by decide)
    (by decide) (by decide) (by decide) (by decide) (by decide) (by decide) (by decide)
    (by decide) (by decide) (by decide) (by decide) (by decide) (by decide)
